import Mathlib

set_option maxRecDepth 100000

/-!
Verification development for the lite_cpplib toolkit.

Shallow embedding of the parts of the library the properties below talk
about: the byte-order helpers (base/byte_order.h), the byte stream
(tools/byte_stream.h), the event primitive (event/event.h), the IOCP
context/pool layer (network/iocp_base.h), the TCP/UDP worker threads
(network/iocp_tcpworkthread.h, network/iocp_udpworkthread.h) and the
send paths of the TCP client/server and UDP peer facades.

Machine integers are modelled as Nat (unsigned) and Int (signed); a
uintN value is a Nat that the surrounding C++ type constrains to be
below 2^N, and the lemmas carry those bounds as hypotheses.  The host
is the Windows little-endian target (the network layer is OS_WIN only),
so the in-memory image of an integer is its little-endian byte list.
-/

/-- Byte-order enumeration from base/byte_order.h.  On the OS_WIN host
HOST_BYTEORDER is LITTLE_ENDIAN and NETWORK_BYTEORDER is BIG_ENDIAN. -/
inductive BYTEORDER where
  | LITTLE_ENDIAN : BYTEORDER
  | BIG_ENDIAN : BYTEORDER
deriving DecidableEq, Repr

/-- Host byte order on the OS_WIN target (HOST_IS_LITTLE_ENDIAN). -/
def HOST_BYTEORDER : BYTEORDER := BYTEORDER.LITTLE_ENDIAN

/-- Network byte order. -/
def NETWORK_BYTEORDER : BYTEORDER := BYTEORDER.BIG_ENDIAN

/-- ReverseShort from base/byte_order.h: byte swap of a uint16_t. -/
def ReverseShort (d : Nat) : Nat :=
  ((d &&& 0x00ff) <<< 8) ||| ((d &&& 0xff00) >>> 8)

/-- ReverseInt from base/byte_order.h: byte swap of a uint32_t. -/
def ReverseInt (d : Nat) : Nat :=
  ((d &&& 0x000000ff) <<< 24) ||| ((d &&& 0x0000ff00) <<< 8) |||
    ((d &&& 0x00ff0000) >>> 8) ||| ((d &&& 0xff000000) >>> 24)

/-- ReverseLog from base/byte_order.h (sic: the source names the
64-bit swap "ReverseLog"): byte swap of a uint64_t. -/
def ReverseLog (d : Nat) : Nat :=
  ((d &&& 0xff00000000000000) >>> 56) |||
    ((d &&& 0x00ff000000000000) >>> 40) |||
    ((d &&& 0x0000ff0000000000) >>> 24) |||
    ((d &&& 0x000000ff00000000) >>> 8) |||
    ((d &&& 0x00000000ff000000) <<< 8) |||
    ((d &&& 0x0000000000ff0000) <<< 24) |||
    ((d &&& 0x000000000000ff00) <<< 40) |||
    ((d &&& 0x00000000000000ff) <<< 56)

/-- HtonUint16 from base/byte_order.h: on the little-endian host this
is ReverseShort. -/
def HtonUint16 (d : Nat) : Nat := ReverseShort d

/-- NtohUint16 from base/byte_order.h. -/
def NtohUint16 (d : Nat) : Nat := ReverseShort d

/-- HtonUint32 from base/byte_order.h. -/
def HtonUint32 (d : Nat) : Nat := ReverseInt d

/-- NtohUint32 from base/byte_order.h. -/
def NtohUint32 (d : Nat) : Nat := ReverseInt d

/-- HtonUint64 from base/byte_order.h (the call site spells the helper
ReverseLong; the function defined in the header is ReverseLog). -/
def HtonUint64 (d : Nat) : Nat := ReverseLog d

/-- NtohUint64 from base/byte_order.h. -/
def NtohUint64 (d : Nat) : Nat := ReverseLog d

theorem and_shiftRight_distrib (a b : Nat) :
    ∀ i : Nat, (a &&& b) >>> i = (a >>> i) &&& (b >>> i) := by
  intro i
  apply Nat.eq_of_testBit_eq
  intro j
  simp [Nat.testBit_shiftRight, Nat.testBit_and]

theorem and_shiftLeft_mask (d k i : Nat) :
    d &&& (k <<< i) = ((d >>> i) &&& k) <<< i := by
  apply Nat.eq_of_testBit_eq
  intro j
  simp only [Nat.testBit_and, Nat.testBit_shiftLeft, Nat.testBit_shiftRight]
  by_cases h : i ≤ j
  · have hj : i + (j - i) = j := by omega
    simp [h, hj]
  · simp [h]

theorem mask_byte (d s : Nat) :
    d &&& (255 <<< s) = (d / 2 ^ s % 256) * 2 ^ s := by
  rw [and_shiftLeft_mask]
  have h255 : (255 : Nat) = 2 ^ 8 - 1 := by norm_num
  rw [h255, Nat.and_pow_two_sub_one_eq_mod, Nat.shiftRight_eq_div_pow,
    Nat.shiftLeft_eq]

theorem or_eq_add_of_lt {i b : Nat} (hb : b < 2 ^ i) (c : Nat) :
    (2 ^ i * c) ||| b = 2 ^ i * c + b :=
  (Nat.mul_add_lt_is_or hb c).symm

theorem and_255_eq_mod (d : Nat) : d &&& 255 = d % 256 := by
  have h255 : (255 : Nat) = 2 ^ 8 - 1 := by norm_num
  rw [h255, Nat.and_pow_two_sub_one_eq_mod]

theorem ReverseShort_eq (d : Nat) (h : d < 2 ^ 16) :
    ReverseShort d = 256 * (d % 256) + d / 256 := by
  have h1 : d &&& 0x00ff = d % 256 := and_255_eq_mod d
  have h2 : d &&& 0xff00 = (d / 2 ^ 8 % 256) * 2 ^ 8 := by
    have hs : (0xff00 : Nat) = 255 <<< 8 := by decide
    rw [hs, mask_byte]
  have hd : d / 256 < 256 := by omega
  rw [ReverseShort, h1, h2, Nat.shiftLeft_eq, Nat.shiftRight_eq_div_pow]
  have h3 : (d / 2 ^ 8 % 256) * 2 ^ 8 / 2 ^ 8 = d / 2 ^ 8 % 256 :=
    Nat.mul_div_cancel _ (by norm_num)
  rw [h3]
  have h4 : d / 2 ^ 8 % 256 = d / 256 := by
    have hp : (2 : Nat) ^ 8 = 256 := by norm_num
    rw [hp]
    omega
  rw [h4]
  have h5 : d % 256 * 2 ^ 8 = 2 ^ 8 * (d % 256) := by ring
  rw [h5, or_eq_add_of_lt (by norm_num [hd]) (d % 256)]
  norm_num

theorem ReverseShort_lt (d : Nat) (h : d < 2 ^ 16) :
    ReverseShort d < 2 ^ 16 := by
  rw [ReverseShort_eq d h]
  omega

theorem ReverseShort_involutive (d : Nat) (h : d < 2 ^ 16) :
    ReverseShort (ReverseShort d) = d := by
  have hR : ReverseShort d < 2 ^ 16 := ReverseShort_lt d h
  rw [ReverseShort_eq (ReverseShort d) hR, ReverseShort_eq d h]
  omega

theorem or_eq_add_of_mod (i a b : Nat) (ha : a % 2 ^ i = 0) (hb : b < 2 ^ i) :
    a ||| b = a + b := by
  obtain ⟨c, hc⟩ := Nat.dvd_of_mod_eq_zero ha
  subst hc
  exact or_eq_add_of_lt hb c

theorem or_eq_add_low (i a b : Nat) (ha : a < 2 ^ i) (hb : b % 2 ^ i = 0) :
    a ||| b = a + b := by
  rw [Nat.lor_comm, or_eq_add_of_mod i b a hb ha]
  omega

theorem ReverseInt_eq (d : Nat) (h : d < 2 ^ 32) :
    ReverseInt d = 2 ^ 24 * (d % 256) + 2 ^ 16 * (d / 2 ^ 8 % 256)
      + 2 ^ 8 * (d / 2 ^ 16 % 256) + d / 2 ^ 24 := by
  rw [ReverseInt]
  set t0 := (d &&& 0x000000ff) <<< 24 with ht0
  set t1 := (d &&& 0x0000ff00) <<< 8 with ht1
  set t2 := (d &&& 0x00ff0000) >>> 8 with ht2
  set t3 := (d &&& 0xff000000) >>> 24 with ht3
  have ft0 : t0 = d % 256 * 2 ^ 24 := by
    rw [ht0, and_255_eq_mod, Nat.shiftLeft_eq]
  have ft1 : t1 = d / 2 ^ 8 % 256 * 2 ^ 8 * 2 ^ 8 := by
    rw [ht1, show (0x0000ff00 : Nat) = 255 <<< 8 by decide, mask_byte,
      Nat.shiftLeft_eq]
  have ft2 : t2 = d / 2 ^ 16 % 256 * 2 ^ 16 / 2 ^ 8 := by
    rw [ht2, show (0x00ff0000 : Nat) = 255 <<< 16 by decide, mask_byte,
      Nat.shiftRight_eq_div_pow]
  have ft3 : t3 = d / 2 ^ 24 % 256 * 2 ^ 24 / 2 ^ 24 := by
    rw [ht3, show (0xff000000 : Nat) = 255 <<< 24 by decide, mask_byte,
      Nat.shiftRight_eq_div_pow]
  rw [or_eq_add_of_mod 24 t0 t1 (by omega) (by omega)]
  rw [or_eq_add_of_mod 16 (t0 + t1) t2 (by omega) (by omega)]
  rw [or_eq_add_of_mod 8 (t0 + t1 + t2) t3 (by omega) (by omega)]
  omega

theorem ReverseInt_lt (d : Nat) (h : d < 2 ^ 32) : ReverseInt d < 2 ^ 32 := by
  rw [ReverseInt_eq d h]
  omega

theorem pack4_bytes (b0 b1 b2 b3 : Nat) (h0 : b0 < 256) (h1 : b1 < 256)
    (h2 : b2 < 256) (h3 : b3 < 256) :
    (2 ^ 24 * b0 + 2 ^ 16 * b1 + 2 ^ 8 * b2 + b3) % 256 = b3 ∧
      (2 ^ 24 * b0 + 2 ^ 16 * b1 + 2 ^ 8 * b2 + b3) / 2 ^ 8 % 256 = b2 ∧
      (2 ^ 24 * b0 + 2 ^ 16 * b1 + 2 ^ 8 * b2 + b3) / 2 ^ 16 % 256 = b1 ∧
      (2 ^ 24 * b0 + 2 ^ 16 * b1 + 2 ^ 8 * b2 + b3) / 2 ^ 24 = b0 := by
  refine ⟨by omega, by omega, by omega, by omega⟩

theorem ReverseInt_involutive (d : Nat) (h : d < 2 ^ 32) :
    ReverseInt (ReverseInt d) = d := by
  have hR : ReverseInt d < 2 ^ 32 := ReverseInt_lt d h
  rw [ReverseInt_eq (ReverseInt d) hR, ReverseInt_eq d h]
  obtain ⟨p0, p1, p2, p3⟩ := pack4_bytes (d % 256) (d / 2 ^ 8 % 256)
    (d / 2 ^ 16 % 256) (d / 2 ^ 24) (by omega) (by omega) (by omega) (by omega)
  rw [p0, p1, p2, p3]
  clear p0 p1 p2 p3 hR h
  omega

theorem ReverseLog_eq (d : Nat) (h : d < 2 ^ 64) :
    ReverseLog d = 2 ^ 56 * (d % 256) + 2 ^ 48 * (d / 2 ^ 8 % 256)
      + 2 ^ 40 * (d / 2 ^ 16 % 256) + 2 ^ 32 * (d / 2 ^ 24 % 256)
      + 2 ^ 24 * (d / 2 ^ 32 % 256) + 2 ^ 16 * (d / 2 ^ 40 % 256)
      + 2 ^ 8 * (d / 2 ^ 48 % 256) + d / 2 ^ 56 := by
  rw [ReverseLog]
  set t7 := (d &&& 0xff00000000000000) >>> 56 with ht7
  set t6 := (d &&& 0x00ff000000000000) >>> 40 with ht6
  set t5 := (d &&& 0x0000ff0000000000) >>> 24 with ht5
  set t4 := (d &&& 0x000000ff00000000) >>> 8 with ht4
  set t3 := (d &&& 0x00000000ff000000) <<< 8 with ht3
  set t2 := (d &&& 0x0000000000ff0000) <<< 24 with ht2
  set t1 := (d &&& 0x000000000000ff00) <<< 40 with ht1
  set t0 := (d &&& 0x00000000000000ff) <<< 56 with ht0
  have ft7 : t7 = d / 2 ^ 56 % 256 * 2 ^ 56 / 2 ^ 56 := by
    rw [ht7, show (0xff00000000000000 : Nat) = 255 <<< 56 by decide, mask_byte,
      Nat.shiftRight_eq_div_pow]
  have ft6 : t6 = d / 2 ^ 48 % 256 * 2 ^ 48 / 2 ^ 40 := by
    rw [ht6, show (0x00ff000000000000 : Nat) = 255 <<< 48 by decide, mask_byte,
      Nat.shiftRight_eq_div_pow]
  have ft5 : t5 = d / 2 ^ 40 % 256 * 2 ^ 40 / 2 ^ 24 := by
    rw [ht5, show (0x0000ff0000000000 : Nat) = 255 <<< 40 by decide, mask_byte,
      Nat.shiftRight_eq_div_pow]
  have ft4 : t4 = d / 2 ^ 32 % 256 * 2 ^ 32 / 2 ^ 8 := by
    rw [ht4, show (0x000000ff00000000 : Nat) = 255 <<< 32 by decide, mask_byte,
      Nat.shiftRight_eq_div_pow]
  have ft3 : t3 = d / 2 ^ 24 % 256 * 2 ^ 24 * 2 ^ 8 := by
    rw [ht3, show (0x00000000ff000000 : Nat) = 255 <<< 24 by decide, mask_byte,
      Nat.shiftLeft_eq]
  have ft2 : t2 = d / 2 ^ 16 % 256 * 2 ^ 16 * 2 ^ 24 := by
    rw [ht2, show (0x0000000000ff0000 : Nat) = 255 <<< 16 by decide, mask_byte,
      Nat.shiftLeft_eq]
  have ft1 : t1 = d / 2 ^ 8 % 256 * 2 ^ 8 * 2 ^ 40 := by
    rw [ht1, show (0x000000000000ff00 : Nat) = 255 <<< 8 by decide, mask_byte,
      Nat.shiftLeft_eq]
  have ft0 : t0 = d % 256 * 2 ^ 56 := by
    rw [ht0, and_255_eq_mod, Nat.shiftLeft_eq]
  rw [or_eq_add_low 8 t7 t6 (by omega) (by omega)]
  rw [or_eq_add_low 16 (t7 + t6) t5 (by omega) (by omega)]
  rw [or_eq_add_low 24 (t7 + t6 + t5) t4 (by omega) (by omega)]
  rw [or_eq_add_low 32 (t7 + t6 + t5 + t4) t3 (by omega) (by omega)]
  rw [or_eq_add_low 40 (t7 + t6 + t5 + t4 + t3) t2 (by omega) (by omega)]
  rw [or_eq_add_low 48 (t7 + t6 + t5 + t4 + t3 + t2) t1 (by omega) (by omega)]
  rw [or_eq_add_low 56 (t7 + t6 + t5 + t4 + t3 + t2 + t1) t0 (by omega) (by omega)]
  omega

theorem ReverseLog_lt (d : Nat) (h : d < 2 ^ 64) : ReverseLog d < 2 ^ 64 := by
  rw [ReverseLog_eq d h]
  omega

theorem pack8_bytes (b0 b1 b2 b3 b4 b5 b6 b7 : Nat) (h0 : b0 < 256)
    (h1 : b1 < 256) (h2 : b2 < 256) (h3 : b3 < 256) (h4 : b4 < 256)
    (h5 : b5 < 256) (h6 : b6 < 256) (h7 : b7 < 256) :
    (2 ^ 56 * b0 + 2 ^ 48 * b1 + 2 ^ 40 * b2 + 2 ^ 32 * b3 + 2 ^ 24 * b4
        + 2 ^ 16 * b5 + 2 ^ 8 * b6 + b7) % 256 = b7 ∧
      (2 ^ 56 * b0 + 2 ^ 48 * b1 + 2 ^ 40 * b2 + 2 ^ 32 * b3 + 2 ^ 24 * b4
        + 2 ^ 16 * b5 + 2 ^ 8 * b6 + b7) / 2 ^ 8 % 256 = b6 ∧
      (2 ^ 56 * b0 + 2 ^ 48 * b1 + 2 ^ 40 * b2 + 2 ^ 32 * b3 + 2 ^ 24 * b4
        + 2 ^ 16 * b5 + 2 ^ 8 * b6 + b7) / 2 ^ 16 % 256 = b5 ∧
      (2 ^ 56 * b0 + 2 ^ 48 * b1 + 2 ^ 40 * b2 + 2 ^ 32 * b3 + 2 ^ 24 * b4
        + 2 ^ 16 * b5 + 2 ^ 8 * b6 + b7) / 2 ^ 24 % 256 = b4 ∧
      (2 ^ 56 * b0 + 2 ^ 48 * b1 + 2 ^ 40 * b2 + 2 ^ 32 * b3 + 2 ^ 24 * b4
        + 2 ^ 16 * b5 + 2 ^ 8 * b6 + b7) / 2 ^ 32 % 256 = b3 ∧
      (2 ^ 56 * b0 + 2 ^ 48 * b1 + 2 ^ 40 * b2 + 2 ^ 32 * b3 + 2 ^ 24 * b4
        + 2 ^ 16 * b5 + 2 ^ 8 * b6 + b7) / 2 ^ 40 % 256 = b2 ∧
      (2 ^ 56 * b0 + 2 ^ 48 * b1 + 2 ^ 40 * b2 + 2 ^ 32 * b3 + 2 ^ 24 * b4
        + 2 ^ 16 * b5 + 2 ^ 8 * b6 + b7) / 2 ^ 48 % 256 = b1 ∧
      (2 ^ 56 * b0 + 2 ^ 48 * b1 + 2 ^ 40 * b2 + 2 ^ 32 * b3 + 2 ^ 24 * b4
        + 2 ^ 16 * b5 + 2 ^ 8 * b6 + b7) / 2 ^ 56 = b0 := by
  refine ⟨by omega, by omega, by omega, by omega, by omega, by omega, by omega,
    by omega⟩

theorem ReverseLog_involutive (d : Nat) (h : d < 2 ^ 64) :
    ReverseLog (ReverseLog d) = d := by
  have hR : ReverseLog d < 2 ^ 64 := ReverseLog_lt d h
  rw [ReverseLog_eq (ReverseLog d) hR, ReverseLog_eq d h]
  obtain ⟨p0, p1, p2, p3, p4, p5, p6, p7⟩ := pack8_bytes (d % 256)
    (d / 2 ^ 8 % 256) (d / 2 ^ 16 % 256) (d / 2 ^ 24 % 256) (d / 2 ^ 32 % 256)
    (d / 2 ^ 40 % 256) (d / 2 ^ 48 % 256) (d / 2 ^ 56) (by omega) (by omega)
    (by omega) (by omega) (by omega) (by omega) (by omega) (by omega)
  rw [p0, p1, p2, p3, p4, p5, p6, p7]
  clear p0 p1 p2 p3 p4 p5 p6 p7 hR h
  omega

/-- Error values thrown by the byte stream (tools/byte_stream.h).
accessViolation models access_violation_exception (its message string is
omitted), nullPtr models null_ptr_exception, and intThrown models a bare
`throw <integer>` statement. -/
inductive StreamErr where
  | accessViolation : StreamErr
  | nullPtr : StreamErr
  | intThrown : Int → StreamErr
deriving DecidableEq, Repr

/-- State of a lite::ByteStream (tools/byte_stream.h).  The buffer
pointer data_ is modelled as an optional list of byte values (none is a
NULL pointer); the buffer length is stream_size_. -/
structure ByteStream where
  data_ : Option (List Nat)
  read_idx_ : Nat
  write_idx_ : Nat
  stream_size_ : Nat
  mallocated_ : Bool
  byte_order_ : BYTEORDER
deriving DecidableEq, Repr

/-- Contents of the buffer, empty when the pointer is NULL. -/
def ByteStream.dataD (s : ByteStream) : List Nat := s.data_.getD []

/-- ByteStream(uint32_t size = 0) with size 0: no allocation. -/
def ByteStream.mk0 : ByteStream :=
  { data_ := none, read_idx_ := 0, write_idx_ := 0, stream_size_ := 0,
    mallocated_ := false, byte_order_ := HOST_BYTEORDER }

/-- ByteStream(uint32_t size) with size greater than 0: allocates a
buffer of that size (contents indeterminate, modelled as zeros). -/
def ByteStream.mkSized (size : Nat) : ByteStream :=
  if 0 < size then
    { data_ := some (List.replicate size 0), read_idx_ := 0, write_idx_ := 0,
      stream_size_ := size, mallocated_ := true, byte_order_ := HOST_BYTEORDER }
  else ByteStream.mk0

/-- ByteStream(const uint8_t* data, uint32_t size): borrows the caller's
buffer (mallocated_ is false), write cursor at size. -/
def ByteStream.ofBuffer (bytes : List Nat) : ByteStream :=
  { data_ := some bytes, read_idx_ := 0, write_idx_ := bytes.length,
    stream_size_ := bytes.length, mallocated_ := false,
    byte_order_ := HOST_BYTEORDER }

/-- Eof: the read pointer has reached the write pointer. -/
def ByteStream.Eof (s : ByteStream) : Bool := s.read_idx_ == s.write_idx_

/-- SetByteOrder. -/
def ByteStream.SetByteOrder (s : ByteStream) (o : BYTEORDER) : ByteStream :=
  { s with byte_order_ := o }

/-- GetBufferSize. -/
def ByteStream.GetBufferSize (s : ByteStream) : Nat := s.stream_size_

/-- GetReadPtr. -/
def ByteStream.GetReadPtr (s : ByteStream) : Nat := s.read_idx_

/-- GetWritePtr. -/
def ByteStream.GetWritePtr (s : ByteStream) : Nat := s.write_idx_

/-- SetReadPtr: `if (read_idx > write_idx_) throw -1; read_idx_ = read_idx`.
The thrown value is the plain integer -1, not one of the library's
exception classes. -/
def ByteStream.SetReadPtr (s : ByteStream) (read_idx : Nat) :
    Except StreamErr ByteStream :=
  if s.write_idx_ < read_idx then Except.error (StreamErr.intThrown (-1))
  else Except.ok { s with read_idx_ := read_idx }

/-- SetWritePtr: clamps to the buffer size. -/
def ByteStream.SetWritePtr (s : ByteStream) (write_idx : Nat) : ByteStream :=
  { s with write_idx_ := if s.stream_size_ < write_idx then s.stream_size_ else write_idx }

/-- The private _Reserve(new_size).  Early-out when new_size fits an
owned allocated buffer; otherwise the new size is bumped to at least
stream_size_+1024 and then to at least stream_size_+stream_size_/16, a
fresh buffer of that size is allocated, the first write_idx_ bytes are
copied over (when the old pointer is non-NULL), and the stream now owns
the buffer.  The uninitialised tail of the fresh allocation is modelled
as zero bytes. -/
def ByteStream._Reserve (s : ByteStream) (new_size : Nat) : ByteStream :=
  if new_size ≤ s.stream_size_ ∧ s.data_ ≠ none ∧ s.mallocated_ = true then s
  else
    let ns1 := if new_size < s.stream_size_ + 1024 then s.stream_size_ + 1024
      else new_size
    let ns2 := if ns1 < s.stream_size_ + s.stream_size_ / 16 then
      s.stream_size_ + s.stream_size_ / 16 else ns1
    { s with
      data_ := some (s.dataD.take s.write_idx_ ++ List.replicate (ns2 - s.write_idx_) 0),
      stream_size_ := ns2,
      mallocated_ := true }

/-- memcpy(&dst[pos], src, src.length) on a byte buffer. -/
def listMemcpy (dst : List Nat) (pos : Nat) (src : List Nat) : List Nat :=
  dst.take pos ++ src ++ dst.drop (pos + src.length)

/-- Add(data, size): no-op on NULL data or zero size (a NULL pointer is
modelled as the empty list), otherwise reserve write_idx_+size, copy the
bytes at the write cursor and advance it. -/
def ByteStream.Add (s : ByteStream) (bytes : List Nat) : ByteStream :=
  if bytes.length = 0 then s
  else
    let s1 := s._Reserve (s.write_idx_ + bytes.length)
    { s1 with
      data_ := some (listMemcpy s1.dataD s1.write_idx_ bytes),
      write_idx_ := s1.write_idx_ + bytes.length }

/-- Get(data, read_size): throws access_violation_exception on a NULL
buffer or over-read, else copies read_size bytes from the read cursor
and advances it. -/
def ByteStream.Get (s : ByteStream) (read_size : Nat) :
    Except StreamErr (List Nat × ByteStream) :=
  if s.data_ = none ∨ s.write_idx_ < read_size + s.read_idx_ then
    Except.error StreamErr.accessViolation
  else
    Except.ok ((s.dataD.drop s.read_idx_).take read_size,
      { s with read_idx_ := s.read_idx_ + read_size })

/-- Two's-complement bit pattern of a signed value in w bits (the
static_cast from intN_t to uintN_t). -/
def toUInt (w : Nat) (v : Int) : Nat := (v % ((2 : Int) ^ w)).toNat

/-- Signed value of a w-bit pattern (the static_cast from uintN_t to
intN_t on a two's-complement machine). -/
def ofUInt (w : Nat) (u : Nat) : Int :=
  if u < 2 ^ (w - 1) then (u : Int) else (u : Int) - 2 ^ w

/-- Little-endian in-memory image of the low w bytes of a value (the
host is little-endian). -/
def leBytes : Nat → Nat → List Nat
  | 0, _ => []
  | Nat.succ n, v => v % 256 :: leBytes n (v / 256)

/-- Value of a little-endian byte list. -/
def leVal : List Nat → Nat
  | [] => 0
  | b :: bs => b + 256 * leVal bs

/-- The _WriteByteorder overload for uint16_t. -/
def ByteStream._WriteByteorderU16 (s : ByteStream) (d : Nat) : Nat :=
  if s.byte_order_ = NETWORK_BYTEORDER then HtonUint16 d else d

/-- The _WriteByteorder overload for uint32_t. -/
def ByteStream._WriteByteorderU32 (s : ByteStream) (d : Nat) : Nat :=
  if s.byte_order_ = NETWORK_BYTEORDER then HtonUint32 d else d

/-- The _WriteByteorder overload for uint64_t. -/
def ByteStream._WriteByteorderU64 (s : ByteStream) (d : Nat) : Nat :=
  if s.byte_order_ = NETWORK_BYTEORDER then HtonUint64 d else d

/-- The _WriteByteorder overload for int16_t (casts through uint16_t). -/
def ByteStream._WriteByteorderI16 (s : ByteStream) (d : Int) : Int :=
  if s.byte_order_ = NETWORK_BYTEORDER then ofUInt 16 (HtonUint16 (toUInt 16 d)) else d

/-- The _WriteByteorder overload for int32_t. -/
def ByteStream._WriteByteorderI32 (s : ByteStream) (d : Int) : Int :=
  if s.byte_order_ = NETWORK_BYTEORDER then ofUInt 32 (HtonUint32 (toUInt 32 d)) else d

/-- The _WriteByteorder overload for int64_t. -/
def ByteStream._WriteByteorderI64 (s : ByteStream) (d : Int) : Int :=
  if s.byte_order_ = NETWORK_BYTEORDER then ofUInt 64 (HtonUint64 (toUInt 64 d)) else d

/-- The _ReadByteorder overload for uint16_t. -/
def ByteStream._ReadByteorderU16 (s : ByteStream) (d : Nat) : Nat :=
  if s.byte_order_ = NETWORK_BYTEORDER then NtohUint16 d else d

/-- The _ReadByteorder overload for uint32_t. -/
def ByteStream._ReadByteorderU32 (s : ByteStream) (d : Nat) : Nat :=
  if s.byte_order_ = NETWORK_BYTEORDER then NtohUint32 d else d

/-- The _ReadByteorder overload for uint64_t. -/
def ByteStream._ReadByteorderU64 (s : ByteStream) (d : Nat) : Nat :=
  if s.byte_order_ = NETWORK_BYTEORDER then NtohUint64 d else d

/-- The _ReadByteorder overload for int16_t. -/
def ByteStream._ReadByteorderI16 (s : ByteStream) (d : Int) : Int :=
  if s.byte_order_ = NETWORK_BYTEORDER then ofUInt 16 (NtohUint16 (toUInt 16 d)) else d

/-- The _ReadByteorder overload for int32_t. -/
def ByteStream._ReadByteorderI32 (s : ByteStream) (d : Int) : Int :=
  if s.byte_order_ = NETWORK_BYTEORDER then ofUInt 32 (NtohUint32 (toUInt 32 d)) else d

/-- The _ReadByteorder overload for int64_t. -/
def ByteStream._ReadByteorderI64 (s : ByteStream) (d : Int) : Int :=
  if s.byte_order_ = NETWORK_BYTEORDER then ofUInt 64 (NtohUint64 (toUInt 64 d)) else d

/-- PutUint8 via operator<<(uint8_t): Add(&b, 1). -/
def ByteStream.PutUint8 (s : ByteStream) (b : Nat) : ByteStream := s.Add [b]

/-- PutInt8 via operator<<(int8_t): Add(&b, 1); the memory image of the
int8_t is its two's-complement byte. -/
def ByteStream.PutInt8 (s : ByteStream) (b : Int) : ByteStream :=
  s.Add [toUInt 8 b]

/-- PutUint16 via operator<<(uint16_t): Add(&_WriteByteorder(b), 2);
the two bytes copied are the little-endian host image. -/
def ByteStream.PutUint16 (s : ByteStream) (b : Nat) : ByteStream :=
  s.Add (leBytes 2 (s._WriteByteorderU16 b))

/-- PutInt16 via operator<<(int16_t). -/
def ByteStream.PutInt16 (s : ByteStream) (b : Int) : ByteStream :=
  s.Add (leBytes 2 (toUInt 16 (s._WriteByteorderI16 b)))

/-- PutUint32 via operator<<(uint32_t). -/
def ByteStream.PutUint32 (s : ByteStream) (b : Nat) : ByteStream :=
  s.Add (leBytes 4 (s._WriteByteorderU32 b))

/-- PutInt32 via operator<<(int32_t). -/
def ByteStream.PutInt32 (s : ByteStream) (b : Int) : ByteStream :=
  s.Add (leBytes 4 (toUInt 32 (s._WriteByteorderI32 b)))

/-- PutUint64 via operator<<(uint64_t). -/
def ByteStream.PutUint64 (s : ByteStream) (b : Nat) : ByteStream :=
  s.Add (leBytes 8 (s._WriteByteorderU64 b))

/-- PutInt64 via operator<<(int64_t). -/
def ByteStream.PutInt64 (s : ByteStream) (b : Int) : ByteStream :=
  s.Add (leBytes 8 (toUInt 64 (s._WriteByteorderI64 b)))

/-- GetUint8 via operator>>(uint8_t&): Get(&b, 1). -/
def ByteStream.GetUint8 (s : ByteStream) : Except StreamErr (Nat × ByteStream) :=
  match s.Get 1 with
  | Except.error e => Except.error e
  | Except.ok (bytes, s2) => Except.ok (leVal bytes, s2)

/-- GetInt8 via operator>>(int8_t&): Get(&b, 1). -/
def ByteStream.GetInt8 (s : ByteStream) : Except StreamErr (Int × ByteStream) :=
  match s.Get 1 with
  | Except.error e => Except.error e
  | Except.ok (bytes, s2) => Except.ok (ofUInt 8 (leVal bytes), s2)

/-- GetUint16 via operator>>(uint16_t&): Get(&b, 2); _ReadByteorder(b). -/
def ByteStream.GetUint16 (s : ByteStream) : Except StreamErr (Nat × ByteStream) :=
  match s.Get 2 with
  | Except.error e => Except.error e
  | Except.ok (bytes, s2) => Except.ok (s2._ReadByteorderU16 (leVal bytes), s2)

/-- GetInt16 via operator>>(int16_t&). -/
def ByteStream.GetInt16 (s : ByteStream) : Except StreamErr (Int × ByteStream) :=
  match s.Get 2 with
  | Except.error e => Except.error e
  | Except.ok (bytes, s2) => Except.ok (s2._ReadByteorderI16 (ofUInt 16 (leVal bytes)), s2)

/-- GetUint32 via operator>>(uint32_t&). -/
def ByteStream.GetUint32 (s : ByteStream) : Except StreamErr (Nat × ByteStream) :=
  match s.Get 4 with
  | Except.error e => Except.error e
  | Except.ok (bytes, s2) => Except.ok (s2._ReadByteorderU32 (leVal bytes), s2)

/-- GetInt32 via operator>>(int32_t&). -/
def ByteStream.GetInt32 (s : ByteStream) : Except StreamErr (Int × ByteStream) :=
  match s.Get 4 with
  | Except.error e => Except.error e
  | Except.ok (bytes, s2) => Except.ok (s2._ReadByteorderI32 (ofUInt 32 (leVal bytes)), s2)

/-- GetUint64 via operator>>(uint64_t&). -/
def ByteStream.GetUint64 (s : ByteStream) : Except StreamErr (Nat × ByteStream) :=
  match s.Get 8 with
  | Except.error e => Except.error e
  | Except.ok (bytes, s2) => Except.ok (s2._ReadByteorderU64 (leVal bytes), s2)

/-- GetInt64 via operator>>(int64_t&). -/
def ByteStream.GetInt64 (s : ByteStream) : Except StreamErr (Int × ByteStream) :=
  match s.Get 8 with
  | Except.error e => Except.error e
  | Except.ok (bytes, s2) => Except.ok (s2._ReadByteorderI64 (ofUInt 64 (leVal bytes)), s2)

/-- Well-formedness of a byte stream: cursors ordered, cursors within
the buffer, and the buffer (empty when NULL) has length stream_size_. -/
def ByteStream.WF (s : ByteStream) : Prop :=
  s.read_idx_ ≤ s.write_idx_ ∧ s.write_idx_ ≤ s.stream_size_ ∧
    s.dataD.length = s.stream_size_

instance (s : ByteStream) : Decidable s.WF := by
  unfold ByteStream.WF
  infer_instance

theorem Get_ok {s : ByteStream} {n : Nat} {bytes : List Nat} {s2 : ByteStream}
    (h : s.Get n = Except.ok (bytes, s2)) :
    s2 = { s with read_idx_ := s.read_idx_ + n } ∧
      bytes = (s.dataD.drop s.read_idx_).take n ∧
      s.data_ ≠ none ∧ n + s.read_idx_ ≤ s.write_idx_ := by
  unfold ByteStream.Get at h
  by_cases hc : s.data_ = none ∨ s.write_idx_ < n + s.read_idx_
  · simp [hc] at h
  · rw [if_neg hc] at h
    push_neg at hc
    simp only [Except.ok.injEq, Prod.mk.injEq] at h
    exact ⟨h.2.symm, h.1.symm, hc.1, hc.2⟩

theorem GetUint8_ok {s : ByteStream} {c : Nat} {s2 : ByteStream}
    (h : s.GetUint8 = Except.ok (c, s2)) :
    s2 = { s with read_idx_ := s.read_idx_ + 1 } ∧
      c = leVal ((s.dataD.drop s.read_idx_).take 1) ∧
      1 + s.read_idx_ ≤ s.write_idx_ := by
  unfold ByteStream.GetUint8 at h
  cases hgt : s.Get 1 with
  | error e => rw [hgt] at h; cases h
  | ok p =>
    rw [hgt] at h
    obtain ⟨bytes, s3⟩ := p
    obtain ⟨e1, e2, _, e4⟩ := Get_ok hgt
    simp only [Except.ok.injEq, Prod.mk.injEq] at h
    exact ⟨h.2 ▸ e1, h.1.symm.trans (congrArg leVal e2), e4⟩

/-- Helper loop of GetString: read bytes one at a time, stopping at the
first zero byte or at end of stream (where a terminating zero is
appended), accumulating everything read into the local ByteStream bs
(modelled by the list of bytes appended to it). -/
def getStringAux (s : ByteStream) (acc : List Nat) :
    Except StreamErr (List Nat × ByteStream) :=
  if s.Eof then Except.ok (acc ++ [0], s)
  else
    match hg : s.GetUint8 with
    | Except.error e => Except.error e
    | Except.ok (c, s2) =>
      if c == 0 then Except.ok (acc ++ [c], s2)
      else getStringAux s2 (acc ++ [c])
termination_by s.write_idx_ - s.read_idx_
decreasing_by
  obtain ⟨e1, _, e3⟩ := GetUint8_ok hg
  subst e1
  simp only []
  omega

/-- Reading a C string out of the collected bytes: string((char*)GetBuffer())
takes the bytes up to the first zero. -/
def cString (l : List Nat) : List Nat := l.takeWhile (fun b => b != 0)

/-- GetString: read bytes until a zero byte or end of stream (appending
the terminator in the latter case) and return the resulting C string. -/
def ByteStream.GetString (s : ByteStream) :
    Except StreamErr (List Nat × ByteStream) :=
  match getStringAux s [] with
  | Except.error e => Except.error e
  | Except.ok (bytes, s2) => Except.ok (cString bytes, s2)

/-- Bytes between the read cursor and the write cursor. -/
def ByteStream.remainingBytes (s : ByteStream) : List Nat :=
  (s.dataD.drop s.read_idx_).take (s.write_idx_ - s.read_idx_)

/-- State of a lite::Event (event/event.h): the manual-reset flag
event_state_ of the OS_LINUX implementation. -/
structure Event where
  event_state_ : Bool
deriving DecidableEq, Repr

/-- Event::Signal (Linux): sets event_state_ and broadcasts. -/
def Event.Signal (e : Event) : Event := { e with event_state_ := true }

/-- Event::Reset (Linux): clears event_state_. -/
def Event.Reset (e : Event) : Event := { e with event_state_ := false }

/-- Event::Wait(timeout) of the OS_LINUX implementation, under a quiet
environment (uncontended mutex, successful clock_gettime, no concurrent
Signal or Reset during the call).  Returns none when the call never
returns.  With timeout 0xffffffff the loop is `while (!event_state_)
pthread_cond_wait(...)`: it exits at once when the state is set and
blocks forever otherwise.  With any other timeout the loop is
`while (event_state_) pthread_cond_timewait(...)`: when the state is SET
it waits until the timeout expires and returns false, and when the state
is CLEAR the loop is skipped and Wait returns true immediately. -/
def Event.Wait (e : Event) (timeout : Nat) : Option Bool :=
  if timeout = 0xffffffff then
    if e.event_state_ then some true else none
  else
    if e.event_state_ then some false else some true

/-- Configuration constant from network/iocp_base.h. -/
def MAX_IO_BUFFER_SIZE : Nat := 4096

/-- Configuration constant from network/iocp_base.h. -/
def WORKER_THREADS_PER_PROCESSOR : Nat := 2

/-- Configuration constant from network/iocp_base.h. -/
def MEM_POOL_SIZE : Nat := 1000

/-- IPv4 socket address (SOCKADDR_IN), fields as plain numbers;
sin_port holds the network-order value the C++ stores. -/
structure SOCKADDR_IN where
  sin_family : Nat
  sin_port : Nat
  sin_addr : Nat
deriving DecidableEq, Repr

/-- All-zero address (the result of ZeroMemory on a SOCKADDR_IN). -/
def SOCKADDR_IN.zero : SOCKADDR_IN := { sin_family := 0, sin_port := 0, sin_addr := 0 }

/-- sizeof(SOCKADDR_IN). -/
def sizeof_SOCKADDR_IN : Nat := 16

/-- AF_INET. -/
def AF_INET : Nat := 2

/-- IO_OPERATION enumeration from network/iocp_base.h. -/
inductive IO_OPERATION where
  | ACCEPT_POSTED : IO_OPERATION
  | RECV_POSTED : IO_OPERATION
  | SEND_POSTED : IO_OPERATION
  | NULL_POSTED : IO_OPERATION
deriving DecidableEq, Repr

/-- IOCP_IoContext from network/iocp_base.h.  SOCKET handles are
Option Nat with none playing INVALID_SOCKET; the OVERLAPPED record is an
opaque number that is 0 when zeroed; wsa_buf_points_at_buf models
`wsa_buf_.buf == buf_`. -/
structure IOCP_IoContext where
  overlapped_ : Nat
  sock_accept_ : Option Nat
  wsa_buf_points_at_buf : Bool
  wsa_buf_len : Nat
  buf_ : List Nat
  trans_len_ : Int
  operation_ : IO_OPERATION
  remote_addr_ : SOCKADDR_IN
  addr_size_ : Nat
deriving DecidableEq, Repr

/-- The _IOCP_IoContext constructor: zeroes the overlapped record, the
buffer and the remote address, points wsa_buf_ at buf_ with length
MAX_IO_BUFFER_SIZE, operation NULL_POSTED, addr_size_
sizeof(SOCKADDR_IN), trans_len_ 0.  The C++ constructor leaves
sock_accept_ uninitialised; the model takes it to be the invalid
socket. -/
def IOCP_IoContext.init : IOCP_IoContext :=
  { overlapped_ := 0, sock_accept_ := none, wsa_buf_points_at_buf := true,
    wsa_buf_len := MAX_IO_BUFFER_SIZE,
    buf_ := List.replicate MAX_IO_BUFFER_SIZE 0, trans_len_ := 0,
    operation_ := IO_OPERATION.NULL_POSTED,
    remote_addr_ := SOCKADDR_IN.zero, addr_size_ := sizeof_SOCKADDR_IN }

/-- IOCP_IoContext::Reset.  The guard in the source is
`if (INVALID_SOCKET == sock_accept_) { closesocket(sock_accept_);
sock_accept_ = INVALID_SOCKET; }`: closesocket runs only when the accept
slot is ALREADY the invalid socket, and a valid accepted socket is
neither closed nor invalidated.  The second component is the list of
arguments passed to closesocket (none stands for INVALID_SOCKET). -/
def IOCP_IoContext.Reset (c : IOCP_IoContext) :
    IOCP_IoContext × List (Option Nat) :=
  let closed : List (Option Nat) :=
    if c.sock_accept_ = none then [none] else []
  let sock_accept' : Option Nat :=
    if c.sock_accept_ = none then none else c.sock_accept_
  ({ overlapped_ := 0, sock_accept_ := sock_accept',
     wsa_buf_points_at_buf := true, wsa_buf_len := MAX_IO_BUFFER_SIZE,
     buf_ := List.replicate MAX_IO_BUFFER_SIZE 0, trans_len_ := 0,
     operation_ := IO_OPERATION.NULL_POSTED,
     remote_addr_ := SOCKADDR_IN.zero, addr_size_ := sizeof_SOCKADDR_IN },
   closed)

/-- IOCP_IoContext::ResetBuffer: zeroes the overlapped record and the
buffer, restores wsa_buf_, addr_size_ and trans_len_; the operation tag,
accept slot and remote address are untouched. -/
def IOCP_IoContext.ResetBuffer (c : IOCP_IoContext) : IOCP_IoContext :=
  { c with
    overlapped_ := 0, buf_ := List.replicate MAX_IO_BUFFER_SIZE 0,
    wsa_buf_points_at_buf := true, wsa_buf_len := MAX_IO_BUFFER_SIZE,
    addr_size_ := sizeof_SOCKADDR_IN, trans_len_ := 0 }

/-- IOCP_IoContextPool from network/iocp_base.h: a mutex-guarded free
list with a configured capacity. -/
structure IOCP_IoContextPool where
  list_io_context_ : List IOCP_IoContext
  pool_size_ : Nat
deriving Repr

/-- The IOCP_IoContextPool constructor: empty list, given capacity. -/
def IOCP_IoContextPool.mkPool (pool_size : Nat) : IOCP_IoContextPool :=
  { list_io_context_ := [], pool_size_ := pool_size }

/-- GetIoContext: allocate fresh when the list is empty, else pop the
front. -/
def IOCP_IoContextPool.GetIoContext (p : IOCP_IoContextPool) :
    IOCP_IoContext × IOCP_IoContextPool :=
  match p.list_io_context_ with
  | [] => (IOCP_IoContext.init, p)
  | c :: rest => (c, { p with list_io_context_ := rest })

/-- PutIoContext: Reset the context, then destroy it when the list is
already at capacity, else push it at the back. -/
def IOCP_IoContextPool.PutIoContext (p : IOCP_IoContextPool)
    (context : IOCP_IoContext) : IOCP_IoContextPool :=
  let context' := (context.Reset).1
  if p.pool_size_ ≤ p.list_io_context_.length then p
  else { p with list_io_context_ := p.list_io_context_ ++ [context'] }

/-- One client call against the context pool. -/
inductive PoolOp where
  | get : PoolOp
  | put : IOCP_IoContext → PoolOp

/-- Apply one pool operation. -/
def IOCP_IoContextPool.applyOp (p : IOCP_IoContextPool) : PoolOp → IOCP_IoContextPool
  | PoolOp.get => (p.GetIoContext).2
  | PoolOp.put c => p.PutIoContext c

/-- Run a sequence of pool operations. -/
def IOCP_IoContextPool.runOps (p : IOCP_IoContextPool) (ops : List PoolOp) :
    IOCP_IoContextPool :=
  ops.foldl IOCP_IoContextPool.applyOp p

/-- IOCP_SocketContext from network/iocp_base.h (the pool back-pointer
is passed explicitly where needed). -/
structure IOCP_SocketContext where
  sock_ : Option Nat
  list_io_context_ : List IOCP_IoContext
  recv_context_ : IOCP_IoContext
  local_addr_ : SOCKADDR_IN
  sock_id_ : Nat
  is_listen_sock_ : Bool
deriving DecidableEq, Repr

/-- The _IOCP_SocketContext constructor. -/
def IOCP_SocketContext.init : IOCP_SocketContext :=
  { sock_ := none, list_io_context_ := [], recv_context_ := IOCP_IoContext.init,
    local_addr_ := SOCKADDR_IN.zero, sock_id_ := 0, is_listen_sock_ := false }

/-- IOCP_SocketContext::Reset: clears id and listen flag, shuts down and
closes a valid socket, zeroes the local address, resets the inline recv
context, and returns every outstanding IoContext to the pool. -/
def IOCP_SocketContext.Reset (c : IOCP_SocketContext)
    (pool : IOCP_IoContextPool) : IOCP_SocketContext × IOCP_IoContextPool :=
  let pool' := c.list_io_context_.foldl IOCP_IoContextPool.PutIoContext pool
  ({ sock_ := none, list_io_context_ := [],
     recv_context_ := (c.recv_context_.Reset).1,
     local_addr_ := SOCKADDR_IN.zero, sock_id_ := 0, is_listen_sock_ := false },
   pool')

/-- IOCP_SocketContext::AddContext: push the in-flight context on the
outstanding list. -/
def IOCP_SocketContext.AddContext (c : IOCP_SocketContext)
    (io : IOCP_IoContext) : IOCP_SocketContext :=
  { c with list_io_context_ := c.list_io_context_ ++ [io] }

/-- Erase the first occurrence (pointer identity in the C++, value
identity here) from the outstanding list. -/
def eraseFirst (l : List IOCP_IoContext) (x : IOCP_IoContext) :
    List IOCP_IoContext :=
  match l with
  | [] => []
  | y :: rest => if y = x then rest else y :: eraseFirst rest x

/-- IOCP_SocketContext::RemoveContext: erase the context from the
outstanding list and return it to the pool. -/
def IOCP_SocketContext.RemoveContext (c : IOCP_SocketContext)
    (io : IOCP_IoContext) (pool : IOCP_IoContextPool) :
    IOCP_SocketContext × IOCP_IoContextPool :=
  ({ c with list_io_context_ := eraseFirst c.list_io_context_ io },
   pool.PutIoContext io)

/-- IOCP_SocketContextPool from network/iocp_base.h: the idle free list
and the active map (an association list with unique keys, modelling the
std::map), plus the shared io-context pool the facade created it
with. -/
structure IOCP_SocketContextPool where
  pool_io_context_ : IOCP_IoContextPool
  list_idle_ : List IOCP_SocketContext
  pool_size_ : Nat
  map_active_ : List (Nat × IOCP_SocketContext)
deriving Repr

/-- GetSocketContext: fresh shell when idle is empty, else pop front. -/
def IOCP_SocketContextPool.GetSocketContext (p : IOCP_SocketContextPool) :
    IOCP_SocketContext × IOCP_SocketContextPool :=
  match p.list_idle_ with
  | [] => (IOCP_SocketContext.init, p)
  | c :: rest => (c, { p with list_idle_ := rest })

/-- PutSocketContext: re-admit to idle only below capacity. -/
def IOCP_SocketContextPool.PutSocketContext (p : IOCP_SocketContextPool)
    (c : IOCP_SocketContext) : IOCP_SocketContextPool :=
  if p.list_idle_.length < p.pool_size_ then
    { p with list_idle_ := p.list_idle_ ++ [c] }
  else p

/-- AddActiveContext: `map_active_[sock_id_] = context_ptr` (std::map
assignment keeps keys unique). -/
def IOCP_SocketContextPool.AddActiveContext (p : IOCP_SocketContextPool)
    (c : IOCP_SocketContext) : IOCP_SocketContextPool :=
  { p with map_active_ :=
      (p.map_active_.filter (fun kv => kv.1 != c.sock_id_)) ++ [(c.sock_id_, c)] }

/-- GetActiveContext: shared reference from the active map, or a null
handle. -/
def IOCP_SocketContextPool.GetActiveContext (p : IOCP_SocketContextPool)
    (sock_id : Nat) : Option IOCP_SocketContext :=
  (p.map_active_.find? (fun kv => kv.1 == sock_id)).map Prod.snd

/-- DelActiveContext: no-op when the id is absent; otherwise erase the
entry from the active map, Reset the shell (returning its outstanding
io contexts to the io pool), and re-admit the shell to idle when below
capacity. -/
def IOCP_SocketContextPool.DelActiveContext (p : IOCP_SocketContextPool)
    (sock_id : Nat) : IOCP_SocketContextPool :=
  match p.map_active_.find? (fun kv => kv.1 == sock_id) with
  | none => p
  | some kv =>
    let active' := p.map_active_.filter (fun x => x.1 != sock_id)
    let reset := kv.2.Reset p.pool_io_context_
    { p with
      map_active_ := active', pool_io_context_ := reset.2,
      list_idle_ := if p.list_idle_.length < p.pool_size_ then
        p.list_idle_ ++ [reset.1] else p.list_idle_ }

/-- Mutation of a SocketContext through its shared pointer is visible in
the active map; this writes the updated shell back under its key. -/
def IOCP_SocketContextPool.updateActive (p : IOCP_SocketContextPool)
    (sock_id : Nat) (c : IOCP_SocketContext) : IOCP_SocketContextPool :=
  { p with map_active_ :=
      p.map_active_.map (fun kv => if kv.1 == sock_id then (kv.1, c) else kv) }

/-- Environment oracle for kernel and Winsock calls made by the workers
and facades: results of WSARecv/WSARecvFrom and WSASend/WSASendTo
posts, AcceptEx delivery, the WSASocket created for an accept, the
completion-port association, the zero-byte liveness probe in
_HandleError, and the addresses GetAcceptExSockAddrs extracts. -/
structure NetEnv where
  probe_send_ok : Bool
  wsa_recv_ok : Bool
  wsa_send_ok : Bool
  acceptex_ok : Bool
  accept_sock : Option Nat
  associate_ok : Bool
  accepted_remote_addr : SOCKADDR_IN
deriving Repr

/-- Observable actions of a worker iteration, in program order:
removal of a socket from the active map, and the user callbacks. -/
inductive WorkerAction where
  | delActive : Nat → WorkerAction
  | disconnectCb : Nat → WorkerAction
  | connectedCb : Nat → WorkerAction
  | receivedCb : Nat → List Nat → Int → WorkerAction
  | recvfromCb : Nat → List Nat → Int → SOCKADDR_IN → WorkerAction
deriving DecidableEq, Repr

/-- Outcome of one worker iteration: the updated pool state, or a crash
from dereferencing a null SocketContextPtr (undefined behaviour in the
C++). -/
inductive StepResult where
  | ok : IOCP_SocketContextPool → StepResult
  | crash : StepResult
deriving Repr

/-- IOCP_TCPWorkThread::PostRecv: ResetBuffer on the inline recv
context, tag it RECV_POSTED, WSARecv.  On a failed post the socket is
removed from active and the disconnect callback is invoked; the Bool is
the return value. -/
def tcpPostRecv (env : NetEnv) (pool : IOCP_SocketContextPool)
    (sock_context : IOCP_SocketContext) :
    List WorkerAction × IOCP_SocketContextPool × Bool :=
  let rc := { sock_context.recv_context_.ResetBuffer with
              operation_ := IO_OPERATION.RECV_POSTED }
  let ctx' := { sock_context with recv_context_ := rc }
  let pool1 := pool.updateActive ctx'.sock_id_ ctx'
  if env.wsa_recv_ok then ([], pool1, true)
  else
    ([WorkerAction.delActive ctx'.sock_id_,
      WorkerAction.disconnectCb ctx'.sock_id_],
     pool1.DelActiveContext ctx'.sock_id_, false)

/-- IOCP_TCPWorkThread::_DoRecv: invoke the receive callback with the
inline recv context's buffer and transferred length, then post the next
receive. -/
def tcpDoRecv (env : NetEnv) (pool : IOCP_SocketContextPool)
    (sock_context : IOCP_SocketContext) :
    List WorkerAction × IOCP_SocketContextPool :=
  let cb := WorkerAction.receivedCb sock_context.sock_id_
    sock_context.recv_context_.buf_ sock_context.recv_context_.trans_len_
  let post := tcpPostRecv env pool sock_context
  (cb :: post.1, post.2.1)

/-- IOCP_TCPWorkThread::_DoAccept.  Extract the peer address, obtain a
fresh SocketContext shell, install the accepted socket with
sock_id = (unsigned long)handle, register it in the active map,
associate it with the completion port (rolling back on failure), fire
the connected callback, post the first receive (rolling back with a
disconnect callback on failure; PostRecv itself already fired one),
then reset the accept context's buffer and re-post the accept on the
listener.  PostAccept starts by reading sock_context->sock_, so a null
listener pointer is a crash. -/
def tcpDoAccept (env : NetEnv) (pool : IOCP_SocketContextPool)
    (sock_context : Option IOCP_SocketContext) (io : IOCP_IoContext) :
    List WorkerAction × StepResult :=
  let got := pool.GetSocketContext
  let new_id := io.sock_accept_.getD 0xffffffff
  let newCtx := { got.1 with
    sock_ := io.sock_accept_, sock_id_ := new_id,
    local_addr_ := env.accepted_remote_addr }
  let pool1 := got.2.AddActiveContext newCtx
  if ¬ env.associate_ok then
    ([], StepResult.ok (pool1.DelActiveContext new_id))
  else
    let post := tcpPostRecv env pool1 newCtx
    if ¬ post.2.2 then
      (WorkerAction.connectedCb new_id :: post.1 ++
        [WorkerAction.delActive new_id, WorkerAction.disconnectCb new_id],
       StepResult.ok (post.2.1.DelActiveContext new_id))
    else
      match sock_context with
      | none => (WorkerAction.connectedCb new_id :: post.1, StepResult.crash)
      | some _ =>
        -- io.ResetBuffer(); PostAccept(sock_context, io): the re-armed accept
        -- context (operation ACCEPT_POSTED, fresh env.accept_sock in the accept
        -- slot) stays in the listener's outstanding list
        (WorkerAction.connectedCb new_id :: post.1, StepResult.ok post.2.1)

/-- One iteration of IOCP_TCPWorkThread::_Run after a SUCCESSFUL
GetQueuedCompletionStatus, carrying bytes_transfered, the completion key
sock_id, and the IoContext recovered from the overlapped record (none
when CONTAINING_RECORD yields NULL).  The active-map lookup result is
used without a null check on this path. -/
def tcpIterCompleted (env : NetEnv) (pool : IOCP_SocketContextPool)
    (bytes_transfered : Nat) (sock_id : Nat)
    (io_data : Option IOCP_IoContext) : List WorkerAction × StepResult :=
  let sock_context := pool.GetActiveContext sock_id
  match io_data with
  | none => ([], StepResult.ok pool)
  | some io =>
    if bytes_transfered = 0 ∧ (io.operation_ = IO_OPERATION.RECV_POSTED ∨
        io.operation_ = IO_OPERATION.SEND_POSTED) then
      ([WorkerAction.delActive sock_id, WorkerAction.disconnectCb sock_id],
       StepResult.ok (pool.DelActiveContext sock_id))
    else
      match io.operation_ with
      | IO_OPERATION.ACCEPT_POSTED => tcpDoAccept env pool sock_context io
      | IO_OPERATION.RECV_POSTED =>
        match sock_context with
        | none => ([], StepResult.crash)
        | some ctx =>
          let ctx1 := { ctx with recv_context_ :=
            { ctx.recv_context_ with trans_len_ := (bytes_transfered : Int) } }
          let pool1 := pool.updateActive sock_id ctx1
          let done := tcpDoRecv env pool1 ctx1
          (done.1, StepResult.ok done.2)
      | IO_OPERATION.SEND_POSTED =>
        match sock_context with
        | none => ([], StepResult.crash)
        | some ctx =>
          let rem := ctx.RemoveContext io pool.pool_io_context_
          let pool1 := { pool with pool_io_context_ := rem.2 }
          ([], StepResult.ok (pool1.updateActive sock_id rem.1))
      | IO_OPERATION.NULL_POSTED => ([], StepResult.ok pool)

/-- GetLastError value for a timed-out dequeue. -/
def WAIT_TIMEOUT : Nat := 258

/-- GetLastError value for a peer hard reset. -/
def ERROR_NETNAME_DELETED : Nat := 64

/-- IOCP_TCPWorkThread::_HandleError on a failed dequeue: a null
context is recoverable; on WAIT_TIMEOUT for a non-listener a zero-byte
probe send decides between continuing and disconnecting;
ERROR_NETNAME_DELETED for a non-listener is an immediate disconnect;
anything else breaks the worker loop (Bool result false). -/
def tcpHandleError (env : NetEnv) (pool : IOCP_SocketContextPool)
    (sock_context : Option IOCP_SocketContext) (err : Nat) :
    List WorkerAction × IOCP_SocketContextPool × Bool :=
  match sock_context with
  | none => ([], pool, true)
  | some ctx =>
    let sock_id := ctx.sock_id_
    if ¬ ctx.is_listen_sock_ ∧ err = WAIT_TIMEOUT then
      if ¬ env.probe_send_ok then
        ([WorkerAction.delActive sock_id, WorkerAction.disconnectCb sock_id],
         pool.DelActiveContext sock_id, true)
      else ([], pool, true)
    else if ¬ ctx.is_listen_sock_ ∧ err = ERROR_NETNAME_DELETED then
      ([WorkerAction.delActive sock_id, WorkerAction.disconnectCb sock_id],
       pool.DelActiveContext sock_id, true)
    else ([], pool, false)

/-- One iteration of IOCP_TCPWorkThread::_Run after a FAILED dequeue. -/
def tcpIterFailed (env : NetEnv) (pool : IOCP_SocketContextPool)
    (err : Nat) (sock_id : Nat) :
    List WorkerAction × IOCP_SocketContextPool × Bool :=
  tcpHandleError env pool (pool.GetActiveContext sock_id) err

/-- IOCP_UDPWorkThread::PostRecv: ResetBuffer, zero the peer address,
tag RECV_POSTED, WSARecvFrom; no rollback on failure. -/
def udpPostRecv (env : NetEnv) (pool : IOCP_SocketContextPool)
    (sock_context : IOCP_SocketContext) : IOCP_SocketContextPool × Bool :=
  let rc := { sock_context.recv_context_.ResetBuffer with
              remote_addr_ := SOCKADDR_IN.zero,
              operation_ := IO_OPERATION.RECV_POSTED }
  let ctx' := { sock_context with recv_context_ := rc }
  (pool.updateActive ctx'.sock_id_ ctx', env.wsa_recv_ok)

/-- IOCP_UDPWorkThread::_DoRecv: invoke the receive-from callback with
buffer, length and source address, then post the next receive. -/
def udpDoRecv (env : NetEnv) (pool : IOCP_SocketContextPool)
    (sock_context : IOCP_SocketContext) :
    List WorkerAction × IOCP_SocketContextPool :=
  let cb := WorkerAction.recvfromCb sock_context.sock_id_
    sock_context.recv_context_.buf_ sock_context.recv_context_.trans_len_
    sock_context.recv_context_.remote_addr_
  let post := udpPostRecv env pool sock_context
  ([cb], post.1)

/-- One iteration of IOCP_UDPWorkThread::_Run after a SUCCESSFUL
dequeue.  As in the TCP worker, the active-map lookup result is
dereferenced without a null check. -/
def udpIterCompleted (env : NetEnv) (pool : IOCP_SocketContextPool)
    (bytes_transfered : Nat) (sock_id : Nat)
    (io_data : Option IOCP_IoContext) : List WorkerAction × StepResult :=
  let sock_context := pool.GetActiveContext sock_id
  match io_data with
  | none => ([], StepResult.ok pool)
  | some io =>
    match io.operation_ with
    | IO_OPERATION.RECV_POSTED =>
      match sock_context with
      | none => ([], StepResult.crash)
      | some ctx =>
        let ctx1 := { ctx with recv_context_ :=
          { ctx.recv_context_ with trans_len_ := (bytes_transfered : Int) } }
        let pool1 := pool.updateActive sock_id ctx1
        let done := udpDoRecv env pool1 ctx1
        (done.1, StepResult.ok done.2)
    | IO_OPERATION.SEND_POSTED =>
      match sock_context with
      | none => ([], StepResult.crash)
      | some ctx =>
        let rem := ctx.RemoveContext io pool.pool_io_context_
        let pool1 := { pool with pool_io_context_ := rem.2 }
        ([], StepResult.ok (pool1.updateActive sock_id rem.1))
    | _ => ([], StepResult.ok pool)

/-- IOCP_UDPWorkThread::_HandleError: null context, WAIT_TIMEOUT and
ERROR_NETNAME_DELETED are recoverable; anything else breaks the loop. -/
def udpHandleError (pool : IOCP_SocketContextPool)
    (sock_context : Option IOCP_SocketContext) (err : Nat) :
    IOCP_SocketContextPool × Bool :=
  match sock_context with
  | none => (pool, true)
  | some _ =>
    if err = WAIT_TIMEOUT then (pool, true)
    else if err = ERROR_NETNAME_DELETED then (pool, true)
    else (pool, false)

/-- Result of a facade Send/SendTo call: failed (returned false before
posting anything) or posted with the IoContext as filled in, the
updated pool state, and the PostSend outcome. -/
inductive SendResult where
  | failed : SendResult
  | posted : IOCP_IoContext → IOCP_SocketContextPool → Bool → SendResult
deriving Repr

/-- IOCP_TCPClient::Send: fail unless started; null active lookup fails;
obtain an IoContext from the pool; memcpy(io_context->buf_, data,
data_len) with NO length check, so every byte of data is copied even
past the 4096-byte buffer (the model's buffer list simply grows past
MAX_IO_BUFFER_SIZE where the C++ writes out of bounds); set
wsa_buf_.len = data_len; AddContext; PostSend (which on a failed WSASend
removes the socket from active and fires the disconnect callback). -/
def IOCP_TCPClient.Send (env : NetEnv) (is_start_ : Bool)
    (pool_sock_context_ : IOCP_SocketContextPool) (sock_id : Nat)
    (data : List Nat) : SendResult :=
  if ¬ is_start_ then SendResult.failed
  else
    match pool_sock_context_.GetActiveContext sock_id with
    | none => SendResult.failed
    | some sock_content =>
      let got := pool_sock_context_.pool_io_context_.GetIoContext
      let io1 := { got.1 with
                   buf_ := listMemcpy got.1.buf_ 0 data,
                   wsa_buf_len := data.length }
      let sock' := sock_content.AddContext io1
      let pool1 := { pool_sock_context_ with pool_io_context_ := got.2 }
      let pool2 := pool1.updateActive sock_id sock'
      let io2 := { io1 with operation_ := IO_OPERATION.SEND_POSTED }
      SendResult.posted io2 pool2 env.wsa_send_ok

/-- IOCP_TCPServer::Send: identical body to the client's Send. -/
def IOCP_TCPServer.Send (env : NetEnv) (is_start_ : Bool)
    (pool_sock_context_ : IOCP_SocketContextPool) (sock_id : Nat)
    (data : List Nat) : SendResult :=
  if ¬ is_start_ then SendResult.failed
  else
    match pool_sock_context_.GetActiveContext sock_id with
    | none => SendResult.failed
    | some sock_content =>
      let got := pool_sock_context_.pool_io_context_.GetIoContext
      let io1 := { got.1 with
                   buf_ := listMemcpy got.1.buf_ 0 data,
                   wsa_buf_len := data.length }
      let sock' := sock_content.AddContext io1
      let pool1 := { pool_sock_context_ with pool_io_context_ := got.2 }
      let pool2 := pool1.updateActive sock_id sock'
      let io2 := { io1 with operation_ := IO_OPERATION.SEND_POSTED }
      SendResult.posted io2 pool2 env.wsa_send_ok

/-- IOCP_UDPNode::SendTo(sock_id, data, len, dst_ip, dst_port): as the
TCP Send (same unchecked memcpy), additionally zeroing and filling the
IoContext's remote address (dst_ip already passed through inet_addr,
the port stored in network order) before AddContext and PostSend
(WSASendTo). -/
def IOCP_UDPNode.SendTo (env : NetEnv) (is_start_ : Bool)
    (pool_sock_context_ : IOCP_SocketContextPool) (sock_id : Nat)
    (data : List Nat) (dst_ip : Nat) (dst_port : Nat) : SendResult :=
  if ¬ is_start_ then SendResult.failed
  else
    match pool_sock_context_.GetActiveContext sock_id with
    | none => SendResult.failed
    | some sock_content =>
      let got := pool_sock_context_.pool_io_context_.GetIoContext
      let io1 := { got.1 with
                   buf_ := listMemcpy got.1.buf_ 0 data,
                   wsa_buf_len := data.length }
      let io2 := { io1 with remote_addr_ :=
        { sin_family := AF_INET, sin_addr := dst_ip,
          sin_port := HtonUint16 dst_port } }
      let sock' := sock_content.AddContext io2
      let pool1 := { pool_sock_context_ with pool_io_context_ := got.2 }
      let pool2 := pool1.updateActive sock_id sock'
      let io3 := { io2 with operation_ := IO_OPERATION.SEND_POSTED }
      SendResult.posted io3 pool2 env.wsa_send_ok

/-- IOCP_UDPNode::SendTo(sock_id, data, len, sock_addr): the pre-formed
address overload. -/
def IOCP_UDPNode.SendToAddr (env : NetEnv) (is_start_ : Bool)
    (pool_sock_context_ : IOCP_SocketContextPool) (sock_id : Nat)
    (data : List Nat) (sock_addr : SOCKADDR_IN) : SendResult :=
  if ¬ is_start_ then SendResult.failed
  else
    match pool_sock_context_.GetActiveContext sock_id with
    | none => SendResult.failed
    | some sock_content =>
      let got := pool_sock_context_.pool_io_context_.GetIoContext
      let io1 := { got.1 with
                   buf_ := listMemcpy got.1.buf_ 0 data,
                   wsa_buf_len := data.length }
      let io2 := { io1 with remote_addr_ := sock_addr }
      let sock' := sock_content.AddContext io2
      let pool1 := { pool_sock_context_ with pool_io_context_ := got.2 }
      let pool2 := pool1.updateActive sock_id sock'
      let io3 := { io2 with operation_ := IO_OPERATION.SEND_POSTED }
      SendResult.posted io3 pool2 env.wsa_send_ok

/-- Benign environment: every kernel call succeeds. -/
def env0 : NetEnv :=
  { probe_send_ok := true, wsa_recv_ok := true, wsa_send_ok := true,
    acceptex_ok := true, accept_sock := some 9, associate_ok := true,
    accepted_remote_addr := SOCKADDR_IN.zero }

/-- A socket-context pool as the facades build it (Init): io pool of
capacity MEM_POOL_SIZE, idle capacity 2*MEM_POOL_SIZE, nothing active. -/
def emptySockPool : IOCP_SocketContextPool :=
  { pool_io_context_ := IOCP_IoContextPool.mkPool MEM_POOL_SIZE,
    list_idle_ := [], pool_size_ := 2 * MEM_POOL_SIZE, map_active_ := [] }

/-- An IoContext as recovered from a completed receive. -/
def ioRecvDone : IOCP_IoContext :=
  { IOCP_IoContext.init with operation_ := IO_OPERATION.RECV_POSTED }

/-- C1: the claim says a completion dequeued after the socket's id was
removed from the active map (null lookup) is silently discarded with no
context access and no callback.  The code has no null check on the
successful-dequeue path: a 5-byte Recv completion for absent sock_id 7
dereferences the null SocketContextPtr (crash), a zero-byte Recv
completion still invokes the disconnect callback for sock_id 7, and the
UDP worker crashes the same way. -/
theorem C1_null_lookup_dispatch_eval :
    tcpIterCompleted env0 emptySockPool 5 7 (some ioRecvDone) =
      ([], StepResult.crash) ∧
    (tcpIterCompleted env0 emptySockPool 0 7 (some ioRecvDone)).1 =
      [WorkerAction.delActive 7, WorkerAction.disconnectCb 7] ∧
    udpIterCompleted env0 emptySockPool 5 7 (some ioRecvDone) =
      ([], StepResult.crash) := by
  refine ⟨rfl, rfl, rfl⟩

/-- An active TCP connection with sock_id 7. -/
def ctx7 : IOCP_SocketContext :=
  { IOCP_SocketContext.init with sock_ := some 7, sock_id_ := 7 }

/-- Pool with socket 7 active. -/
def pool7 : IOCP_SocketContextPool :=
  { emptySockPool with map_active_ := [(7, ctx7)] }

/-- A 4097-byte message. -/
def bigData : List Nat := List.replicate 4097 1

/-- Projection: size of the buffer of a posted send's IoContext. -/
def SendResult.postedBufLen : SendResult → Option Nat
  | SendResult.posted io _ _ => some io.buf_.length
  | _ => none

/-- Projection: wsa_buf_.len of a posted send's IoContext. -/
def SendResult.postedWsaLen : SendResult → Option Nat
  | SendResult.posted io _ _ => some io.wsa_buf_len
  | _ => none

theorem tcpClientSend_projections (env : NetEnv)
    (pool : IOCP_SocketContextPool) (sock_id : Nat) (data : List Nat)
    (ctx : IOCP_SocketContext)
    (hget : pool.GetActiveContext sock_id = some ctx) :
    (IOCP_TCPClient.Send env true pool sock_id data).postedWsaLen =
      some data.length ∧
    (IOCP_TCPClient.Send env true pool sock_id data).postedBufLen =
      some (listMemcpy (pool.pool_io_context_.GetIoContext).1.buf_ 0 data).length := by
  unfold IOCP_TCPClient.Send
  rw [hget]
  simp [SendResult.postedWsaLen, SendResult.postedBufLen]

theorem tcpServerSend_projections (env : NetEnv)
    (pool : IOCP_SocketContextPool) (sock_id : Nat) (data : List Nat)
    (ctx : IOCP_SocketContext)
    (hget : pool.GetActiveContext sock_id = some ctx) :
    (IOCP_TCPServer.Send env true pool sock_id data).postedWsaLen =
      some data.length ∧
    (IOCP_TCPServer.Send env true pool sock_id data).postedBufLen =
      some (listMemcpy (pool.pool_io_context_.GetIoContext).1.buf_ 0 data).length := by
  unfold IOCP_TCPServer.Send
  rw [hget]
  simp [SendResult.postedWsaLen, SendResult.postedBufLen]

theorem udpSendTo_projections (env : NetEnv)
    (pool : IOCP_SocketContextPool) (sock_id : Nat) (data : List Nat)
    (dst_ip dst_port : Nat) (ctx : IOCP_SocketContext)
    (hget : pool.GetActiveContext sock_id = some ctx) :
    (IOCP_UDPNode.SendTo env true pool sock_id data dst_ip dst_port).postedWsaLen =
      some data.length ∧
    (IOCP_UDPNode.SendTo env true pool sock_id data dst_ip dst_port).postedBufLen =
      some (listMemcpy (pool.pool_io_context_.GetIoContext).1.buf_ 0 data).length := by
  unfold IOCP_UDPNode.SendTo
  rw [hget]
  simp [SendResult.postedWsaLen, SendResult.postedBufLen]

theorem memcpy_bigData_length :
    (listMemcpy IOCP_IoContext.init.buf_ 0 bigData).length = 4097 := by
  have h1 : IOCP_IoContext.init.buf_ = List.replicate MAX_IO_BUFFER_SIZE 0 := rfl
  have hb : bigData.length = 4097 := by
    rw [bigData, List.length_replicate]
  have hm : MAX_IO_BUFFER_SIZE = 4096 := rfl
  rw [listMemcpy, List.length_append, List.length_append, List.take_zero,
    List.length_nil, List.length_drop, hb, h1, List.length_replicate, hm]

/-- C2: the claim says Send/SendTo with data_len greater than 4096 fails
or truncates and never copies more than 4096 bytes into the IoContext
buffer.  The code performs memcpy(io_context->buf_, data, data_len)
with no length check: with a 4097-byte message and an active socket,
all three send paths copy 4097 bytes (overflowing the 4096-byte buffer)
and post a send of length 4097. -/
theorem C2_send_overflow_eval :
    (IOCP_TCPClient.Send env0 true pool7 7 bigData).postedBufLen = some 4097 ∧
    (IOCP_TCPClient.Send env0 true pool7 7 bigData).postedWsaLen = some 4097 ∧
    (IOCP_TCPServer.Send env0 true pool7 7 bigData).postedBufLen = some 4097 ∧
    (IOCP_TCPServer.Send env0 true pool7 7 bigData).postedWsaLen = some 4097 ∧
    (IOCP_UDPNode.SendTo env0 true pool7 7 bigData 2130706433 17012).postedBufLen
      = some 4097 ∧
    (IOCP_UDPNode.SendTo env0 true pool7 7 bigData 2130706433 17012).postedWsaLen
      = some 4097 ∧
    MAX_IO_BUFFER_SIZE < 4097 := by
  have hget : pool7.GetActiveContext 7 = some ctx7 := rfl
  have hio : (pool7.pool_io_context_.GetIoContext).1 = IOCP_IoContext.init := rfl
  have hdl : bigData.length = 4097 := by rw [bigData, List.length_replicate]
  obtain ⟨c1, c2⟩ := tcpClientSend_projections env0 pool7 7 bigData ctx7 hget
  obtain ⟨s1, s2⟩ := tcpServerSend_projections env0 pool7 7 bigData ctx7 hget
  obtain ⟨u1, u2⟩ := udpSendTo_projections env0 pool7 7 bigData 2130706433 17012 ctx7 hget
  rw [hio] at c2 s2 u2
  rw [hdl] at c1 s1 u1
  rw [memcpy_bigData_length] at c2 s2 u2
  exact ⟨c2, c1, s2, s1, u2, u1, by decide⟩

/-- An accept IoContext carrying a valid accepted socket handle 5. -/
def ctxAccept5 : IOCP_IoContext :=
  { IOCP_IoContext.init with
    sock_accept_ := some 5,
    operation_ := IO_OPERATION.ACCEPT_POSTED }

/-- C5: the claim says Reset closes any valid accepted socket and leaves
the slot invalid.  The guard is inverted (`if (INVALID_SOCKET ==
sock_accept_)`), so Reset on a context whose accept slot holds the valid
handle 5 calls closesocket on nothing and leaves the slot holding 5
(while the zeroing clauses of the claim do hold); conversely on an
already-invalid slot it calls closesocket(INVALID_SOCKET). -/
theorem C5_reset_accept_slot_eval :
    (ctxAccept5.Reset).2 = [] ∧
    (ctxAccept5.Reset).1.sock_accept_ = some 5 ∧
    (ctxAccept5.Reset).1.operation_ = IO_OPERATION.NULL_POSTED ∧
    (ctxAccept5.Reset).1.overlapped_ = 0 ∧
    (ctxAccept5.Reset).1.buf_ = List.replicate MAX_IO_BUFFER_SIZE 0 ∧
    (ctxAccept5.Reset).1.remote_addr_ = SOCKADDR_IN.zero ∧
    (ctxAccept5.Reset).1.wsa_buf_points_at_buf = true ∧
    (ctxAccept5.Reset).1.wsa_buf_len = MAX_IO_BUFFER_SIZE ∧
    (IOCP_IoContext.init.Reset).2 = [(none : Option Nat)] := by
  refine ⟨rfl, rfl, rfl, rfl, rfl, rfl, rfl, rfl, rfl⟩

/-- C6: the claim says that once Signal has been called every Wait, with
any timeout including the 0 poll and finite timeouts, returns true until
Reset.  In the Linux implementation the finite-timeout loop condition is
inverted (`while (event_state_)`), so on a signalled event Wait(0) and
Wait(500) time out and return false (only the 0xffffffff path returns
true), while on a clear event the finite-timeout Wait returns true
immediately. -/
theorem C6_wait_after_signal_eval :
    (Event.mk false).Signal.Wait 0 = some false ∧
    (Event.mk false).Signal.Wait 500 = some false ∧
    (Event.mk false).Signal.Wait 4294967295 = some true ∧
    (Event.mk false).Wait 500 = some true := by
  refine ⟨rfl, rfl, rfl, rfl⟩

theorem find?_filter_ne (l : List (Nat × IOCP_SocketContext)) (k : Nat) :
    (l.filter (fun kv => kv.1 != k)).find? (fun kv => kv.1 == k) = none := by
  induction l with
  | nil => rfl
  | cons hd tl ih =>
    rw [List.filter_cons]
    by_cases h : hd.1 = k
    · simp [h, ih]
    · have hb2 : (hd.1 == k) = false := by simp [h]
      simp [h, List.find?_cons, hb2, ih]

theorem GetActiveContext_DelActiveContext (p : IOCP_SocketContextPool)
    (sock_id : Nat) :
    (p.DelActiveContext sock_id).GetActiveContext sock_id = none := by
  unfold IOCP_SocketContextPool.DelActiveContext
  cases hf : p.map_active_.find? (fun kv => kv.1 == sock_id) with
  | none => simp [IOCP_SocketContextPool.GetActiveContext, hf]
  | some kv => simp [IOCP_SocketContextPool.GetActiveContext, find?_filter_ne]

/-- C3: a TCP completion with zero transferred bytes whose operation tag
is Recv or Send is treated as orderly close: the worker calls
DelActiveContext (after which the active lookup for that id is a null
handle) and then invokes the disconnect callback for that sock_id, in
that order. -/
theorem C3_zero_byte_close (env : NetEnv) (pool : IOCP_SocketContextPool)
    (sock_id : Nat) (io : IOCP_IoContext)
    (hop : io.operation_ = IO_OPERATION.RECV_POSTED ∨
      io.operation_ = IO_OPERATION.SEND_POSTED) :
    tcpIterCompleted env pool 0 sock_id (some io) =
      ([WorkerAction.delActive sock_id, WorkerAction.disconnectCb sock_id],
        StepResult.ok (pool.DelActiveContext sock_id)) ∧
    (pool.DelActiveContext sock_id).GetActiveContext sock_id = none := by
  constructor
  · simp only [tcpIterCompleted]
    exact if_pos ⟨trivial, hop⟩
  · exact GetActiveContext_DelActiveContext pool sock_id

theorem C3_zero_byte_close_witness :
    tcpIterCompleted env0 emptySockPool 0 7 (some ioRecvDone) =
      ([WorkerAction.delActive 7, WorkerAction.disconnectCb 7],
        StepResult.ok (emptySockPool.DelActiveContext 7)) ∧
    (emptySockPool.DelActiveContext 7).GetActiveContext 7 = none :=
  C3_zero_byte_close env0 emptySockPool 7 ioRecvDone (Or.inl rfl)

/-- C4: starting from a freshly-constructed IoContext pool of any
configured capacity, after any sequence of GetIoContext/PutIoContext
calls the free list holds at most that capacity of contexts (get pops
the front or allocates fresh; put resets then pushes only below
capacity, destroying otherwise). -/
theorem C4_pool_capacity (cap : Nat) (ops : List PoolOp) :
    ((IOCP_IoContextPool.mkPool cap).runOps ops).list_io_context_.length ≤ cap := by
  suffices h : ∀ (ops : List PoolOp) (p : IOCP_IoContextPool),
      p.list_io_context_.length ≤ p.pool_size_ →
      (p.runOps ops).list_io_context_.length ≤ p.pool_size_ ∧
      (p.runOps ops).pool_size_ = p.pool_size_ by
    exact (h ops _ (by simp [IOCP_IoContextPool.mkPool])).1
  intro ops
  induction ops with
  | nil => exact fun p hp => ⟨hp, rfl⟩
  | cons op rest ih =>
    intro p hp
    have step : (p.applyOp op).list_io_context_.length ≤ p.pool_size_ ∧
        (p.applyOp op).pool_size_ = p.pool_size_ := by
      cases op with
      | get =>
        simp only [IOCP_IoContextPool.applyOp, IOCP_IoContextPool.GetIoContext]
        cases hl : p.list_io_context_ with
        | nil =>
          refine ⟨?_, rfl⟩
          show p.list_io_context_.length ≤ p.pool_size_
          exact hp
        | cons c rest2 =>
          constructor
          · show rest2.length ≤ p.pool_size_
            rw [hl] at hp
            simp only [List.length_cons] at hp
            omega
          · rfl
      | put c =>
        simp only [IOCP_IoContextPool.applyOp, IOCP_IoContextPool.PutIoContext]
        by_cases hc : p.pool_size_ ≤ p.list_io_context_.length
        · rw [if_pos hc]
          exact ⟨hp, rfl⟩
        · rw [if_neg hc]
          refine ⟨?_, rfl⟩
          simp only [List.length_append, List.length_cons, List.length_nil]
          omega
    have hrun : p.runOps (op :: rest) = (p.applyOp op).runOps rest := rfl
    rw [hrun]
    have := ih (p.applyOp op) (by rw [step.2]; exact step.1)
    rw [step.2] at this
    exact this

theorem C4_pool_capacity_witness :
    ((IOCP_IoContextPool.mkPool 2).runOps
      [PoolOp.get, PoolOp.put IOCP_IoContext.init,
        PoolOp.put IOCP_IoContext.init, PoolOp.put IOCP_IoContext.init,
        PoolOp.put IOCP_IoContext.init]).list_io_context_.length ≤ 2 :=
  C4_pool_capacity 2 _

/-- C8 counterexample: the claim says that whenever the requested size
is at most the current capacity the buffer is unchanged, for every byte
stream.  For a stream that does not own its buffer (the borrowed-buffer
constructor, mallocated_ false) _Reserve reallocates even when n fits:
with capacity 4 and n = 2 the stream is changed and its capacity becomes
1028. -/
theorem C8_reserve_unchanged_cex :
    2 ≤ (ByteStream.ofBuffer [1, 2, 3, 4]).stream_size_ ∧
    ((ByteStream.ofBuffer [1, 2, 3, 4])._Reserve 2).stream_size_ = 1028 ∧
    (ByteStream.ofBuffer [1, 2, 3, 4])._Reserve 2 ≠
      ByteStream.ofBuffer [1, 2, 3, 4] := by
  refine ⟨by decide, rfl, fun h => ?_⟩
  have hs := congrArg ByteStream.stream_size_ h
  simp only [] at hs
  exact absurd hs (by decide)

theorem reserve_grow_stream_size (s : ByteStream) (n : Nat)
    (hc : ¬ (n ≤ s.stream_size_ ∧ s.data_ ≠ none ∧ s.mallocated_ = true)) :
    (s._Reserve n).stream_size_ =
      max n (max (s.stream_size_ + 1024) (s.stream_size_ + s.stream_size_ / 16)) := by
  simp only [ByteStream._Reserve, if_neg hc]
  split_ifs <;> omega

/-- C8 amended: _Reserve(n) leaves the stream unchanged only when n is
at most the capacity AND the stream owns an allocated buffer; in every
other case (including n within capacity on a NULL or borrowed buffer)
the new capacity is max(n, old+1024, old+old/16), hence at least n and
at least old + max(1024, old/16). -/
theorem C8_reserve_amended (s : ByteStream) (n : Nat) :
    ((n ≤ s.stream_size_ ∧ s.data_ ≠ none ∧ s.mallocated_ = true) →
      s._Reserve n = s) ∧
    (¬ (n ≤ s.stream_size_ ∧ s.data_ ≠ none ∧ s.mallocated_ = true) →
      (s._Reserve n).stream_size_ =
        max n (max (s.stream_size_ + 1024) (s.stream_size_ + s.stream_size_ / 16)) ∧
      n ≤ (s._Reserve n).stream_size_ ∧
      s.stream_size_ + max 1024 (s.stream_size_ / 16) ≤ (s._Reserve n).stream_size_) := by
  constructor
  · intro hc
    unfold ByteStream._Reserve
    rw [if_pos hc]
  · intro hc
    have hsz := reserve_grow_stream_size s n hc
    exact ⟨hsz, by omega, by omega⟩

theorem C8_reserve_amended_witness :
    (ByteStream.mkSized 4)._Reserve 3 = ByteStream.mkSized 4 ∧
    (ByteStream.mk0._Reserve 0).stream_size_ =
      max 0 (max (ByteStream.mk0.stream_size_ + 1024)
        (ByteStream.mk0.stream_size_ + ByteStream.mk0.stream_size_ / 16)) :=
  ⟨(C8_reserve_amended (ByteStream.mkSized 4) 3).1 (by decide),
   ((C8_reserve_amended ByteStream.mk0 0).2 (by decide)).1⟩

/-- C9 counterexample: the claim says moving the read cursor past the
write cursor raises AccessViolation.  SetReadPtr(1) on an empty stream
does fail, but by throwing the bare integer -1, which is not the
AccessViolation error. -/
theorem C9_setreadptr_cex :
    ByteStream.mk0.SetReadPtr 1 = Except.error (StreamErr.intThrown (-1)) ∧
    Except.error (StreamErr.intThrown (-1)) ≠
      (Except.error StreamErr.accessViolation : Except StreamErr ByteStream) := by
  refine ⟨rfl, fun h => StreamErr.noConfusion (Except.error.inj h)⟩

/-- C9 amended: moving the read cursor to a position strictly greater
than the write cursor fails by throwing the bare integer -1 (not one of
the library's exception classes), the throw happening before the cursor
assignment so the stream is unchanged; moving it to any position up to
and including the write cursor succeeds and sets the cursor. -/
theorem C9_setreadptr_amended (s : ByteStream) (read_idx : Nat) :
    (s.write_idx_ < read_idx →
      s.SetReadPtr read_idx = Except.error (StreamErr.intThrown (-1))) ∧
    (read_idx ≤ s.write_idx_ →
      s.SetReadPtr read_idx = Except.ok { s with read_idx_ := read_idx }) := by
  constructor
  · intro h
    unfold ByteStream.SetReadPtr
    rw [if_pos h]
  · intro h
    unfold ByteStream.SetReadPtr
    rw [if_neg (by omega)]

theorem C9_setreadptr_amended_witness :
    ByteStream.mk0.SetReadPtr 1 = Except.error (StreamErr.intThrown (-1)) ∧
    (ByteStream.ofBuffer [5]).SetReadPtr 1 =
      Except.ok { ByteStream.ofBuffer [5] with read_idx_ := 1 } :=
  ⟨(C9_setreadptr_amended ByteStream.mk0 1).1 (by decide),
   (C9_setreadptr_amended (ByteStream.ofBuffer [5]) 1).2 (by decide)⟩

theorem leBytes_length (w v : Nat) : (leBytes w v).length = w := by
  induction w generalizing v with
  | zero => rfl
  | succ n ih => simp [leBytes, ih]

theorem leVal_leBytes (w v : Nat) : leVal (leBytes w v) = v % 2 ^ (8 * w) := by
  induction w generalizing v with
  | zero => simp [leBytes, leVal, Nat.mod_one]
  | succ n ih =>
    rw [show 8 * (n + 1) = 8 + 8 * n by ring, pow_add]
    simp only [leBytes, leVal]
    rw [ih, Nat.mod_mul]
    norm_num

theorem reserve_spec (s : ByteStream) (n : Nat) (h : s.WF) :
    (s._Reserve n).read_idx_ = s.read_idx_ ∧
    (s._Reserve n).write_idx_ = s.write_idx_ ∧
    (s._Reserve n).byte_order_ = s.byte_order_ ∧
    (s._Reserve n).data_ ≠ none ∧
    (s._Reserve n).dataD.length = (s._Reserve n).stream_size_ ∧
    n ≤ (s._Reserve n).stream_size_ ∧
    s.write_idx_ ≤ (s._Reserve n).stream_size_ := by
  obtain ⟨h1, h2, h3⟩ := h
  by_cases hc : n ≤ s.stream_size_ ∧ s.data_ ≠ none ∧ s.mallocated_ = true
  · unfold ByteStream._Reserve
    rw [if_pos hc]
    exact ⟨rfl, rfl, rfl, hc.2.1, h3, hc.1, h2⟩
  · simp only [ByteStream.dataD] at h3
    simp only [ByteStream._Reserve, if_neg hc, ByteStream.dataD]
    refine ⟨by trivial, by trivial, by trivial, by simp, ?_, ?_, ?_⟩
    · simp only [Option.getD_some, List.length_append, List.length_take,
        List.length_replicate]
      split_ifs <;> omega
    · split_ifs <;> omega
    · split_ifs <;> omega

theorem slice_of_memcpy (d : List Nat) (w r len : Nat) (bytes : List Nat)
    (hw : w ≤ d.length) (hr : r = w) (hlen : bytes.length = len) :
    ((listMemcpy d w bytes).drop r).take len = bytes := by
  subst hr
  rw [listMemcpy, List.append_assoc,
    List.drop_left' (by rw [List.length_take]; omega),
    List.take_left' hlen]

theorem Add_Get (s : ByteStream) (bytes : List Nat) (h : s.WF)
    (he : s.read_idx_ = s.write_idx_) (hne : bytes ≠ []) :
    (s.Add bytes).Get bytes.length =
      Except.ok (bytes,
        { s.Add bytes with read_idx_ := s.read_idx_ + bytes.length }) := by
  have hspec := reserve_spec s (s.write_idx_ + bytes.length) h
  set s1 := s._Reserve (s.write_idx_ + bytes.length) with hs1
  obtain ⟨r1, r2, r3, r4, r5, r6, r7⟩ := hspec
  simp only [ByteStream.dataD] at r5
  have hlen0 : ¬ bytes.length = 0 := by
    cases bytes with
    | nil => exact absurd rfl hne
    | cons a l => simp
  have hadd : s.Add bytes =
      { s1 with
        data_ := some (listMemcpy s1.dataD s1.write_idx_ bytes),
        write_idx_ := s1.write_idx_ + bytes.length } := by
    unfold ByteStream.Add
    rw [if_neg hlen0]
  rw [hadd]
  unfold ByteStream.Get
  rw [if_neg ?hcond]
  case hcond =>
    dsimp only
    rintro (hx | hx)
    · exact Option.noConfusion hx
    · omega
  simp only [ByteStream.dataD, Option.getD_some]
  have hrw : s1.read_idx_ = s1.write_idx_ := by omega
  rw [slice_of_memcpy (s1.data_.getD []) s1.write_idx_ s1.read_idx_
    bytes.length bytes (by omega) hrw rfl, r1]

theorem Add_byte_order (s : ByteStream) (bytes : List Nat) (h : s.WF) :
    (s.Add bytes).byte_order_ = s.byte_order_ := by
  unfold ByteStream.Add
  by_cases hl : bytes.length = 0
  · rw [if_pos hl]
  · rw [if_neg hl]
    exact (reserve_spec s (s.write_idx_ + bytes.length) h).2.2.1

theorem toUInt_lt8 (v : Int) : toUInt 8 v < 2 ^ 8 := by
  unfold toUInt
  omega

theorem toUInt_lt16 (v : Int) : toUInt 16 v < 2 ^ 16 := by
  unfold toUInt
  omega

theorem toUInt_lt32 (v : Int) : toUInt 32 v < 2 ^ 32 := by
  unfold toUInt
  omega

theorem toUInt_lt64 (v : Int) : toUInt 64 v < 2 ^ 64 := by
  unfold toUInt
  omega

theorem toUInt_ofUInt8 (u : Nat) (hu : u < 2 ^ 8) : toUInt 8 (ofUInt 8 u) = u := by
  unfold toUInt ofUInt
  split_ifs <;> omega

theorem toUInt_ofUInt16 (u : Nat) (hu : u < 2 ^ 16) : toUInt 16 (ofUInt 16 u) = u := by
  unfold toUInt ofUInt
  split_ifs <;> omega

theorem toUInt_ofUInt32 (u : Nat) (hu : u < 2 ^ 32) : toUInt 32 (ofUInt 32 u) = u := by
  unfold toUInt ofUInt
  split_ifs <;> omega

theorem toUInt_ofUInt64 (u : Nat) (hu : u < 2 ^ 64) : toUInt 64 (ofUInt 64 u) = u := by
  unfold toUInt ofUInt
  split_ifs <;> omega

theorem ofUInt_toUInt8 (v : Int) (h1 : -(2 ^ 7) ≤ v) (h2 : v < 2 ^ 7) :
    ofUInt 8 (toUInt 8 v) = v := by
  unfold toUInt ofUInt
  split_ifs <;> omega

theorem ofUInt_toUInt16 (v : Int) (h1 : -(2 ^ 15) ≤ v) (h2 : v < 2 ^ 15) :
    ofUInt 16 (toUInt 16 v) = v := by
  unfold toUInt ofUInt
  split_ifs <;> omega

theorem ofUInt_toUInt32 (v : Int) (h1 : -(2 ^ 31) ≤ v) (h2 : v < 2 ^ 31) :
    ofUInt 32 (toUInt 32 v) = v := by
  unfold toUInt ofUInt
  split_ifs <;> omega

theorem ofUInt_toUInt64 (v : Int) (h1 : -(2 ^ 63) ≤ v) (h2 : v < 2 ^ 63) :
    ofUInt 64 (toUInt 64 v) = v := by
  unfold toUInt ofUInt
  split_ifs <;> omega

theorem put_get_u8 (s : ByteStream) (h : s.WF)
    (he : s.read_idx_ = s.write_idx_) (v : Nat) (hv : v < 2 ^ 8) :
    (s.PutUint8 v).GetUint8 =
      Except.ok (v, { s.PutUint8 v with read_idx_ := s.read_idx_ + 1 }) := by
  have hg := Add_Get s [v] h he (by simp)
  simp only [List.length_singleton] at hg
  unfold ByteStream.PutUint8 ByteStream.GetUint8
  rw [hg]
  dsimp only
  rw [show leVal [v] = v by simp [leVal]]

theorem put_get_i8 (s : ByteStream) (h : s.WF)
    (he : s.read_idx_ = s.write_idx_) (v : Int)
    (h1 : -(2 ^ 7) ≤ v) (h2 : v < 2 ^ 7) :
    (s.PutInt8 v).GetInt8 =
      Except.ok (v, { s.PutInt8 v with read_idx_ := s.read_idx_ + 1 }) := by
  have hg := Add_Get s [toUInt 8 v] h he (by simp)
  simp only [List.length_singleton] at hg
  unfold ByteStream.PutInt8 ByteStream.GetInt8
  rw [hg]
  dsimp only
  rw [show leVal [toUInt 8 v] = toUInt 8 v by simp [leVal],
    ofUInt_toUInt8 v h1 h2]

theorem put_get_u16 (s : ByteStream) (h : s.WF)
    (he : s.read_idx_ = s.write_idx_) (v : Nat) (hv : v < 2 ^ 16) :
    (s.PutUint16 v).GetUint16 =
      Except.ok (v, { s.PutUint16 v with read_idx_ := s.read_idx_ + 2 }) := by
  unfold ByteStream.PutUint16 ByteStream.GetUint16
  by_cases hb : s.byte_order_ = NETWORK_BYTEORDER
  · have hw : s._WriteByteorderU16 v = HtonUint16 v := by
      unfold ByteStream._WriteByteorderU16
      rw [if_pos hb]
    rw [hw]
    have hg := Add_Get s (leBytes 2 (HtonUint16 v)) h he (by simp [leBytes])
    rw [leBytes_length] at hg
    rw [hg]
    dsimp only
    unfold ByteStream._ReadByteorderU16
    dsimp only
    rw [Add_byte_order s (leBytes 2 (HtonUint16 v)) h, if_pos hb,
      leVal_leBytes, show (2 : Nat) ^ (8 * 2) = 2 ^ 16 by norm_num,
      Nat.mod_eq_of_lt (show HtonUint16 v < 2 ^ 16 from ReverseShort_lt v hv),
      show NtohUint16 (HtonUint16 v) = v from ReverseShort_involutive v hv]
  · have hw : s._WriteByteorderU16 v = v := by
      unfold ByteStream._WriteByteorderU16
      rw [if_neg hb]
    rw [hw]
    have hg := Add_Get s (leBytes 2 v) h he (by simp [leBytes])
    rw [leBytes_length] at hg
    rw [hg]
    dsimp only
    unfold ByteStream._ReadByteorderU16
    dsimp only
    rw [Add_byte_order s (leBytes 2 v) h, if_neg hb,
      leVal_leBytes, show (2 : Nat) ^ (8 * 2) = 2 ^ 16 by norm_num,
      Nat.mod_eq_of_lt hv]

theorem put_get_i16 (s : ByteStream) (h : s.WF)
    (he : s.read_idx_ = s.write_idx_) (v : Int)
    (h1 : -(2 ^ 15) ≤ v) (h2 : v < 2 ^ 15) :
    (s.PutInt16 v).GetInt16 =
      Except.ok (v, { s.PutInt16 v with read_idx_ := s.read_idx_ + 2 }) := by
  unfold ByteStream.PutInt16 ByteStream.GetInt16
  by_cases hb : s.byte_order_ = NETWORK_BYTEORDER
  · have hw : toUInt 16 (s._WriteByteorderI16 v) = HtonUint16 (toUInt 16 v) := by
      unfold ByteStream._WriteByteorderI16
      rw [if_pos hb, toUInt_ofUInt16 (HtonUint16 (toUInt 16 v))
        (ReverseShort_lt _ (toUInt_lt16 v))]
    rw [hw]
    have hg := Add_Get s (leBytes 2 (HtonUint16 (toUInt 16 v))) h he
      (by simp [leBytes])
    rw [leBytes_length] at hg
    rw [hg]
    dsimp only
    unfold ByteStream._ReadByteorderI16
    dsimp only
    rw [Add_byte_order s (leBytes 2 (HtonUint16 (toUInt 16 v))) h, if_pos hb,
      leVal_leBytes, show (2 : Nat) ^ (8 * 2) = 2 ^ 16 by norm_num,
      Nat.mod_eq_of_lt (show HtonUint16 (toUInt 16 v) < 2 ^ 16 from
        ReverseShort_lt _ (toUInt_lt16 v)),
      toUInt_ofUInt16 (HtonUint16 (toUInt 16 v))
        (ReverseShort_lt _ (toUInt_lt16 v)),
      show NtohUint16 (HtonUint16 (toUInt 16 v)) = toUInt 16 v from
        ReverseShort_involutive _ (toUInt_lt16 v),
      ofUInt_toUInt16 v h1 h2]
  · have hw : toUInt 16 (s._WriteByteorderI16 v) = toUInt 16 v := by
      unfold ByteStream._WriteByteorderI16
      rw [if_neg hb]
    rw [hw]
    have hg := Add_Get s (leBytes 2 (toUInt 16 v)) h he (by simp [leBytes])
    rw [leBytes_length] at hg
    rw [hg]
    dsimp only
    unfold ByteStream._ReadByteorderI16
    dsimp only
    rw [Add_byte_order s (leBytes 2 (toUInt 16 v)) h, if_neg hb,
      leVal_leBytes, show (2 : Nat) ^ (8 * 2) = 2 ^ 16 by norm_num,
      Nat.mod_eq_of_lt (toUInt_lt16 v), ofUInt_toUInt16 v h1 h2]

theorem put_get_u32 (s : ByteStream) (h : s.WF)
    (he : s.read_idx_ = s.write_idx_) (v : Nat) (hv : v < 2 ^ 32) :
    (s.PutUint32 v).GetUint32 =
      Except.ok (v, { s.PutUint32 v with read_idx_ := s.read_idx_ + 4 }) := by
  unfold ByteStream.PutUint32 ByteStream.GetUint32
  by_cases hb : s.byte_order_ = NETWORK_BYTEORDER
  · have hw : s._WriteByteorderU32 v = HtonUint32 v := by
      unfold ByteStream._WriteByteorderU32
      rw [if_pos hb]
    rw [hw]
    have hg := Add_Get s (leBytes 4 (HtonUint32 v)) h he (by simp [leBytes])
    rw [leBytes_length] at hg
    rw [hg]
    dsimp only
    unfold ByteStream._ReadByteorderU32
    dsimp only
    rw [Add_byte_order s (leBytes 4 (HtonUint32 v)) h, if_pos hb,
      leVal_leBytes, show (2 : Nat) ^ (8 * 4) = 2 ^ 32 by norm_num,
      Nat.mod_eq_of_lt (show HtonUint32 v < 2 ^ 32 from ReverseInt_lt v hv),
      show NtohUint32 (HtonUint32 v) = v from ReverseInt_involutive v hv]
  · have hw : s._WriteByteorderU32 v = v := by
      unfold ByteStream._WriteByteorderU32
      rw [if_neg hb]
    rw [hw]
    have hg := Add_Get s (leBytes 4 v) h he (by simp [leBytes])
    rw [leBytes_length] at hg
    rw [hg]
    dsimp only
    unfold ByteStream._ReadByteorderU32
    dsimp only
    rw [Add_byte_order s (leBytes 4 v) h, if_neg hb,
      leVal_leBytes, show (2 : Nat) ^ (8 * 4) = 2 ^ 32 by norm_num,
      Nat.mod_eq_of_lt hv]

theorem put_get_i32 (s : ByteStream) (h : s.WF)
    (he : s.read_idx_ = s.write_idx_) (v : Int)
    (h1 : -(2 ^ 31) ≤ v) (h2 : v < 2 ^ 31) :
    (s.PutInt32 v).GetInt32 =
      Except.ok (v, { s.PutInt32 v with read_idx_ := s.read_idx_ + 4 }) := by
  unfold ByteStream.PutInt32 ByteStream.GetInt32
  by_cases hb : s.byte_order_ = NETWORK_BYTEORDER
  · have hw : toUInt 32 (s._WriteByteorderI32 v) = HtonUint32 (toUInt 32 v) := by
      unfold ByteStream._WriteByteorderI32
      rw [if_pos hb, toUInt_ofUInt32 (HtonUint32 (toUInt 32 v))
        (ReverseInt_lt _ (toUInt_lt32 v))]
    rw [hw]
    have hg := Add_Get s (leBytes 4 (HtonUint32 (toUInt 32 v))) h he
      (by simp [leBytes])
    rw [leBytes_length] at hg
    rw [hg]
    dsimp only
    unfold ByteStream._ReadByteorderI32
    dsimp only
    rw [Add_byte_order s (leBytes 4 (HtonUint32 (toUInt 32 v))) h, if_pos hb,
      leVal_leBytes, show (2 : Nat) ^ (8 * 4) = 2 ^ 32 by norm_num,
      Nat.mod_eq_of_lt (show HtonUint32 (toUInt 32 v) < 2 ^ 32 from
        ReverseInt_lt _ (toUInt_lt32 v)),
      toUInt_ofUInt32 (HtonUint32 (toUInt 32 v))
        (ReverseInt_lt _ (toUInt_lt32 v)),
      show NtohUint32 (HtonUint32 (toUInt 32 v)) = toUInt 32 v from
        ReverseInt_involutive _ (toUInt_lt32 v),
      ofUInt_toUInt32 v h1 h2]
  · have hw : toUInt 32 (s._WriteByteorderI32 v) = toUInt 32 v := by
      unfold ByteStream._WriteByteorderI32
      rw [if_neg hb]
    rw [hw]
    have hg := Add_Get s (leBytes 4 (toUInt 32 v)) h he (by simp [leBytes])
    rw [leBytes_length] at hg
    rw [hg]
    dsimp only
    unfold ByteStream._ReadByteorderI32
    dsimp only
    rw [Add_byte_order s (leBytes 4 (toUInt 32 v)) h, if_neg hb,
      leVal_leBytes, show (2 : Nat) ^ (8 * 4) = 2 ^ 32 by norm_num,
      Nat.mod_eq_of_lt (toUInt_lt32 v), ofUInt_toUInt32 v h1 h2]

theorem put_get_u64 (s : ByteStream) (h : s.WF)
    (he : s.read_idx_ = s.write_idx_) (v : Nat) (hv : v < 2 ^ 64) :
    (s.PutUint64 v).GetUint64 =
      Except.ok (v, { s.PutUint64 v with read_idx_ := s.read_idx_ + 8 }) := by
  unfold ByteStream.PutUint64 ByteStream.GetUint64
  by_cases hb : s.byte_order_ = NETWORK_BYTEORDER
  · have hw : s._WriteByteorderU64 v = HtonUint64 v := by
      unfold ByteStream._WriteByteorderU64
      rw [if_pos hb]
    rw [hw]
    have hg := Add_Get s (leBytes 8 (HtonUint64 v)) h he (by simp [leBytes])
    rw [leBytes_length] at hg
    rw [hg]
    dsimp only
    unfold ByteStream._ReadByteorderU64
    dsimp only
    rw [Add_byte_order s (leBytes 8 (HtonUint64 v)) h, if_pos hb,
      leVal_leBytes, show (2 : Nat) ^ (8 * 8) = 2 ^ 64 by norm_num,
      Nat.mod_eq_of_lt (show HtonUint64 v < 2 ^ 64 from ReverseLog_lt v hv),
      show NtohUint64 (HtonUint64 v) = v from ReverseLog_involutive v hv]
  · have hw : s._WriteByteorderU64 v = v := by
      unfold ByteStream._WriteByteorderU64
      rw [if_neg hb]
    rw [hw]
    have hg := Add_Get s (leBytes 8 v) h he (by simp [leBytes])
    rw [leBytes_length] at hg
    rw [hg]
    dsimp only
    unfold ByteStream._ReadByteorderU64
    dsimp only
    rw [Add_byte_order s (leBytes 8 v) h, if_neg hb,
      leVal_leBytes, show (2 : Nat) ^ (8 * 8) = 2 ^ 64 by norm_num,
      Nat.mod_eq_of_lt hv]

theorem put_get_i64 (s : ByteStream) (h : s.WF)
    (he : s.read_idx_ = s.write_idx_) (v : Int)
    (h1 : -(2 ^ 63) ≤ v) (h2 : v < 2 ^ 63) :
    (s.PutInt64 v).GetInt64 =
      Except.ok (v, { s.PutInt64 v with read_idx_ := s.read_idx_ + 8 }) := by
  unfold ByteStream.PutInt64 ByteStream.GetInt64
  by_cases hb : s.byte_order_ = NETWORK_BYTEORDER
  · have hw : toUInt 64 (s._WriteByteorderI64 v) = HtonUint64 (toUInt 64 v) := by
      unfold ByteStream._WriteByteorderI64
      rw [if_pos hb, toUInt_ofUInt64 (HtonUint64 (toUInt 64 v))
        (ReverseLog_lt _ (toUInt_lt64 v))]
    rw [hw]
    have hg := Add_Get s (leBytes 8 (HtonUint64 (toUInt 64 v))) h he
      (by simp [leBytes])
    rw [leBytes_length] at hg
    rw [hg]
    dsimp only
    unfold ByteStream._ReadByteorderI64
    dsimp only
    rw [Add_byte_order s (leBytes 8 (HtonUint64 (toUInt 64 v))) h, if_pos hb,
      leVal_leBytes, show (2 : Nat) ^ (8 * 8) = 2 ^ 64 by norm_num,
      Nat.mod_eq_of_lt (show HtonUint64 (toUInt 64 v) < 2 ^ 64 from
        ReverseLog_lt _ (toUInt_lt64 v)),
      toUInt_ofUInt64 (HtonUint64 (toUInt 64 v))
        (ReverseLog_lt _ (toUInt_lt64 v)),
      show NtohUint64 (HtonUint64 (toUInt 64 v)) = toUInt 64 v from
        ReverseLog_involutive _ (toUInt_lt64 v),
      ofUInt_toUInt64 v h1 h2]
  · have hw : toUInt 64 (s._WriteByteorderI64 v) = toUInt 64 v := by
      unfold ByteStream._WriteByteorderI64
      rw [if_neg hb]
    rw [hw]
    have hg := Add_Get s (leBytes 8 (toUInt 64 v)) h he (by simp [leBytes])
    rw [leBytes_length] at hg
    rw [hg]
    dsimp only
    unfold ByteStream._ReadByteorderI64
    dsimp only
    rw [Add_byte_order s (leBytes 8 (toUInt 64 v)) h, if_neg hb,
      leVal_leBytes, show (2 : Nat) ^ (8 * 8) = 2 ^ 64 by norm_num,
      Nat.mod_eq_of_lt (toUInt_lt64 v), ofUInt_toUInt64 v h1 h2]

/-- Stream fixture for the C7 witness: an empty default-constructed
stream switched to network byte order. -/
def bsNet : ByteStream := ByteStream.mk0.SetByteOrder NETWORK_BYTEORDER

/-- C7: for every supported integer type (signed and unsigned
8/16/32/64-bit) and for whatever byte order the stream carries (each
conjunct's proof covers both HOST_BYTEORDER and NETWORK_BYTEORDER by
cases), writing a representable value v with operator<< and then
reading the same type with operator>> from the same stream position
yields exactly v. -/
theorem C7_stream_roundtrip (s : ByteStream) (h : s.WF)
    (he : s.read_idx_ = s.write_idx_) :
    (∀ v : Nat, v < 2 ^ 8 →
      (s.PutUint8 v).GetUint8 =
        Except.ok (v, { s.PutUint8 v with read_idx_ := s.read_idx_ + 1 })) ∧
    (∀ v : Int, -(2 ^ 7) ≤ v → v < 2 ^ 7 →
      (s.PutInt8 v).GetInt8 =
        Except.ok (v, { s.PutInt8 v with read_idx_ := s.read_idx_ + 1 })) ∧
    (∀ v : Nat, v < 2 ^ 16 →
      (s.PutUint16 v).GetUint16 =
        Except.ok (v, { s.PutUint16 v with read_idx_ := s.read_idx_ + 2 })) ∧
    (∀ v : Int, -(2 ^ 15) ≤ v → v < 2 ^ 15 →
      (s.PutInt16 v).GetInt16 =
        Except.ok (v, { s.PutInt16 v with read_idx_ := s.read_idx_ + 2 })) ∧
    (∀ v : Nat, v < 2 ^ 32 →
      (s.PutUint32 v).GetUint32 =
        Except.ok (v, { s.PutUint32 v with read_idx_ := s.read_idx_ + 4 })) ∧
    (∀ v : Int, -(2 ^ 31) ≤ v → v < 2 ^ 31 →
      (s.PutInt32 v).GetInt32 =
        Except.ok (v, { s.PutInt32 v with read_idx_ := s.read_idx_ + 4 })) ∧
    (∀ v : Nat, v < 2 ^ 64 →
      (s.PutUint64 v).GetUint64 =
        Except.ok (v, { s.PutUint64 v with read_idx_ := s.read_idx_ + 8 })) ∧
    (∀ v : Int, -(2 ^ 63) ≤ v → v < 2 ^ 63 →
      (s.PutInt64 v).GetInt64 =
        Except.ok (v, { s.PutInt64 v with read_idx_ := s.read_idx_ + 8 })) :=
  ⟨fun v hv => put_get_u8 s h he v hv,
   fun v h1 h2 => put_get_i8 s h he v h1 h2,
   fun v hv => put_get_u16 s h he v hv,
   fun v h1 h2 => put_get_i16 s h he v h1 h2,
   fun v hv => put_get_u32 s h he v hv,
   fun v h1 h2 => put_get_i32 s h he v h1 h2,
   fun v hv => put_get_u64 s h he v hv,
   fun v h1 h2 => put_get_i64 s h he v h1 h2⟩

/-- Witness for C7 at concrete inputs: a 32-bit unsigned and a 64-bit
signed round-trip through a network-byte-order stream. -/
theorem C7_stream_roundtrip_witness :
    (bsNet.PutUint32 66051).GetUint32 =
      Except.ok (66051, { bsNet.PutUint32 66051 with
        read_idx_ := bsNet.read_idx_ + 4 }) ∧
    (bsNet.PutInt64 (-5)).GetInt64 =
      Except.ok (-5, { bsNet.PutInt64 (-5) with
        read_idx_ := bsNet.read_idx_ + 8 }) :=
  ⟨(C7_stream_roundtrip bsNet (by decide) rfl).2.2.2.2.1 66051 (by norm_num),
   (C7_stream_roundtrip bsNet (by decide) rfl).2.2.2.2.2.2.2 (-5)
     (by norm_num) (by norm_num)⟩

/-- When the read cursor is strictly before the write cursor, the
remaining bytes decompose as the byte under the read cursor followed by
the remaining bytes after advancing the cursor. -/
theorem remainingBytes_cons (s : ByteStream) (h : s.WF)
    (hlt : s.read_idx_ < s.write_idx_) :
    s.remainingBytes =
      leVal ((s.dataD.drop s.read_idx_).take 1) ::
        ({ s with read_idx_ := s.read_idx_ + 1 } : ByteStream).remainingBytes := by
  obtain ⟨w1, w2, w3⟩ := h
  have hi : s.read_idx_ < s.dataD.length := by omega
  simp only [ByteStream.remainingBytes, ByteStream.dataD]
  simp only [ByteStream.dataD] at hi
  rw [List.drop_eq_getElem_cons hi]
  rw [show s.write_idx_ - s.read_idx_ =
    (s.write_idx_ - (s.read_idx_ + 1)) + 1 from by omega]
  rw [List.take_succ_cons]
  simp [leVal]

/-- getStringAux on a stream whose remaining bytes hold no zero byte:
it consumes everything up to the write cursor, appends the terminating
zero, and leaves the read cursor at the write cursor. -/
theorem getStringAux_no_zero (n : Nat) :
    ∀ (s : ByteStream) (acc : List Nat), s.WF →
      s.write_idx_ - s.read_idx_ = n →
      (∀ b ∈ s.remainingBytes, b ≠ 0) →
      getStringAux s acc =
        Except.ok (acc ++ s.remainingBytes ++ [0],
          { s with read_idx_ := s.write_idx_ }) := by
  induction n with
  | zero =>
    intro s acc hwf hn hnz
    have hrw : s.read_idx_ = s.write_idx_ := by
      obtain ⟨w1, _, _⟩ := hwf; omega
    have heof : s.Eof = true := by
      simp [ByteStream.Eof, hrw]
    have hrem : s.remainingBytes = [] := by
      simp [ByteStream.remainingBytes, hrw]
    have hs : ({ s with read_idx_ := s.write_idx_ } : ByteStream) = s := by
      obtain ⟨d, r, w, sz, m, o⟩ := s
      have hrw2 : r = w := hrw
      show ByteStream.mk d w w sz m o = ByteStream.mk d r w sz m o
      rw [hrw2]
    unfold getStringAux
    rw [if_pos heof, hrem, hs, List.append_nil]
  | succ n ih =>
    intro s acc hwf hn hnz
    obtain ⟨w1, w2, w3⟩ := hwf
    have hlt : s.read_idx_ < s.write_idx_ := by omega
    have heof : ¬ s.Eof = true := by
      simp [ByteStream.Eof]; omega
    have hne : s.data_ ≠ none := by
      intro hd
      have hz : s.dataD.length = 0 := by simp [ByteStream.dataD, hd]
      omega
    have hc : ¬ (s.data_ = none ∨ s.write_idx_ < 1 + s.read_idx_) := by
      push_neg
      exact ⟨hne, by omega⟩
    have hget : s.Get 1 = Except.ok ((s.dataD.drop s.read_idx_).take 1,
        { s with read_idx_ := s.read_idx_ + 1 }) := by
      unfold ByteStream.Get
      rw [if_neg hc]
    have hu8 : s.GetUint8 = Except.ok (leVal ((s.dataD.drop s.read_idx_).take 1),
        { s with read_idx_ := s.read_idx_ + 1 }) := by
      unfold ByteStream.GetUint8
      rw [hget]
    have hsplit := remainingBytes_cons s ⟨w1, w2, w3⟩ hlt
    have hc0 : leVal ((s.dataD.drop s.read_idx_).take 1) ≠ 0 := by
      apply hnz
      rw [hsplit]
      exact List.mem_cons_self _ _
    have hwf' : ({ s with read_idx_ := s.read_idx_ + 1 } : ByteStream).WF := by
      unfold ByteStream.dataD at w3
      unfold ByteStream.WF ByteStream.dataD
      dsimp only
      exact ⟨by omega, w2, w3⟩
    have hn' : ({ s with read_idx_ := s.read_idx_ + 1 } : ByteStream).write_idx_ -
        ({ s with read_idx_ := s.read_idx_ + 1 } : ByteStream).read_idx_ = n := by
      dsimp only
      omega
    have hnz' : ∀ b ∈ ({ s with read_idx_ := s.read_idx_ + 1 } :
        ByteStream).remainingBytes, b ≠ 0 := by
      intro b hb
      exact hnz b (by rw [hsplit]; exact List.mem_cons_of_mem _ hb)
    unfold getStringAux
    rw [if_neg heof]
    split
    · rename_i e hg
      rw [hu8] at hg
      cases hg
    · rename_i c s2 hg
      rw [hu8] at hg
      simp only [Except.ok.injEq, Prod.mk.injEq] at hg
      obtain ⟨hcv, hs2⟩ := hg
      subst hcv
      subst hs2
      rw [if_neg (by simpa using hc0)]
      rw [ih _ _ hwf' hn' hnz']
      rw [hsplit]
      dsimp only
      rw [List.append_assoc acc, List.singleton_append]

/-- Reading a C string out of bytes with no interior zero followed by a
terminator recovers exactly those bytes. -/
theorem cString_no_zero (l : List Nat) (h : ∀ b ∈ l, b ≠ 0) :
    cString (l ++ [0]) = l := by
  induction l with
  | nil =>
    simp [cString]
  | cons a t ih =>
    have ha : a ≠ 0 := h a (List.mem_cons_self a t)
    rw [List.cons_append]
    unfold cString
    rw [List.takeWhile_cons_of_pos (by simpa using ha)]
    unfold cString at ih
    rw [ih (fun b hb => h b (List.mem_cons_of_mem a hb))]

/-- C10: on a stream whose remaining unread bytes contain no zero byte,
GetString raises no error: it returns exactly the bytes from the read
cursor to the write cursor (end of stream acting as the terminator) and
leaves the read cursor at the write cursor. -/
theorem C10_getstring (s : ByteStream) (h : s.WF)
    (hnz : ∀ b ∈ s.remainingBytes, b ≠ 0) :
    s.GetString =
      Except.ok (s.remainingBytes, { s with read_idx_ := s.write_idx_ }) := by
  unfold ByteStream.GetString
  rw [getStringAux_no_zero (s.write_idx_ - s.read_idx_) s [] h rfl hnz]
  dsimp only
  rw [List.nil_append, cString_no_zero s.remainingBytes hnz]

/-- Witness for C10: GetString on a borrowed buffer [1, 2, 3] with no
zero byte returns those three bytes and exhausts the stream. -/
theorem C10_getstring_witness :
    (ByteStream.ofBuffer [1, 2, 3]).GetString =
      Except.ok ((ByteStream.ofBuffer [1, 2, 3]).remainingBytes,
        { ByteStream.ofBuffer [1, 2, 3] with
          read_idx_ := (ByteStream.ofBuffer [1, 2, 3]).write_idx_ }) :=
  C10_getstring (ByteStream.ofBuffer [1, 2, 3]) (by decide) (by decide)
